import Mathlib

/-!
Verification of the MTGDeckConverter core: a shallow embedding of the
version codec and schema-migration engine (card_db/updater.py), the card
database population and lookup operations (card_db/db.py), and the deck
model with its information-completion algorithm (model.py), together with
theorems settling the specification claims.

Strings are modelled by Lean strings (lists of characters); Python string
primitives (lower, title, split, endswith, str, int) are embedded as
executable functions on character lists. Machine-level SQLite state is
modelled as explicit lists of table rows; exceptions are modelled with
Except / Option results.
-/

/-! Python string primitives, embedded over character lists. -/

/-- Model of Python str.lower for a single ASCII character. -/
def lowerChar (c : Char) : Char :=
  if 65 ≤ c.toNat ∧ c.toNat ≤ 90 then Char.ofNat (c.toNat + 32) else c

/-- Model of Python str.upper for a single ASCII character. -/
def upperChar (c : Char) : Char :=
  if 97 ≤ c.toNat ∧ c.toNat ≤ 122 then Char.ofNat (c.toNat - 32) else c

/-- Model of Python str.lower on ASCII strings. -/
def lowerStr (s : String) : String := String.mk (s.data.map lowerChar)

/-- True for ASCII letters; models the cased-character test used by Python str.title. -/
def isAsciiAlpha (c : Char) : Bool :=
  (65 ≤ c.toNat && c.toNat ≤ 90) || (97 ≤ c.toNat && c.toNat ≤ 122)

/-- Helper for pyTitle: the Bool records whether the previous character was a letter. -/
def pyTitleAux : Bool → List Char → List Char
  | _, [] => []
  | prev, c :: rest =>
    (if isAsciiAlpha c then (if prev then lowerChar c else upperChar c) else c)
      :: pyTitleAux (isAsciiAlpha c) rest

/-- Model of Python str.title on ASCII strings: the first letter of every word is
upper-cased, every other letter is lower-cased. -/
def pyTitle (s : String) : String := String.mk (pyTitleAux false s.data)

/-- Character for decimal digit d. -/
def digitChar (d : Nat) : Char := Char.ofNat (48 + d)

/-- Decimal digit characters of n, most significant first; model of Python str(n)
for a non-negative integer n. -/
def natChars (n : Nat) : List Char :=
  if _h : n < 10 then [digitChar n]
  else natChars (n / 10) ++ [digitChar (n % 10)]
termination_by n
decreasing_by exact Nat.div_lt_self (by omega) (by omega)

/-- Model of Python str(n) for a non-negative integer n. -/
def natStr (n : Nat) : String := String.mk (natChars n)

/-- Model of Python int(s) on a string of decimal digits. -/
def pyIntChars (cs : List Char) : Nat :=
  cs.foldl (fun acc c => 10 * acc + (c.toNat - 48)) 0

/-- Model of Python s.split(sep) for a single-character separator sep. -/
def splitCharsOn (sep : Char) : List Char → List (List Char)
  | [] => [[]]
  | c :: rest =>
    if c = sep then [] :: splitCharsOn sep rest
    else
      match splitCharsOn sep rest with
      | [] => [[c]]
      | g :: gs => (c :: g) :: gs

/-- Model of Python text.endswith(suffix). -/
def pyEndsWith (text suffix : String) : Bool :=
  decide (suffix.data.length ≤ text.data.length) &&
  decide (text.data.drop (text.data.length - suffix.data.length) = suffix.data)

/-- Embedding of updater.strip_end: remove suffix from text if present. -/
def strip_end (text suffix : String) : String :=
  if pyEndsWith text suffix then
    String.mk (text.data.take (text.data.length - suffix.data.length))
  else text

/-! Version codec (card_db/updater.py). -/

/-- Horner form of the sum 1000 to the power i times parts[i] taken over the
index range of the list, as computed in updater.parse_patch_name over the
reversed parts list. -/
def base1000_sum : List Nat → Nat
  | [] => 0
  | d :: rest => d + 1000 * base1000_sum rest

/-- Embedding of updater.parse_patch_name: strip a trailing ".sql", split on dots,
convert each component with int(), and combine the reversed parts in base 1000. -/
def parse_patch_name (patch_name : String) : Nat :=
  let name := strip_end patch_name ".sql"
  let parts := (splitCharsOn '.' name.data).map pyIntChars
  base1000_sum parts.reverse

/-- Digit groups of the loop in updater.version_str: repeatedly emit str(version mod 1000)
and divide by 1000 while the version is non-zero, least significant group first. -/
def versionDigits (n : Nat) : List String :=
  if _h : n = 0 then [] else natStr (n % 1000) :: versionDigits (n / 1000)
termination_by n
decreasing_by exact Nat.div_lt_self (by omega) (by omega)

/-- Model of Python ".".join(parts). -/
def pyJoinDot : List String → String
  | [] => ""
  | [x] => x
  | x :: y :: rest => x ++ "." ++ pyJoinDot (y :: rest)

/-- Embedding of updater.version_str: emit base-1000 groups of the integer version,
left-pad with "0" up to three parts, and join the reversed parts with dots. -/
def version_str (version : Nat) : String :=
  let parts := versionDigits version
  let padded := parts ++ List.replicate (3 - parts.length) "0"
  pyJoinDot padded.reverse

/-- Canonical dotted three-part version string of a (major, minor, patch) triple,
as written in a patch folder or file name. -/
def triString (M m p : Nat) : String :=
  String.mk (natChars M ++ '.' :: (natChars m ++ '.' :: natChars p))

/-! Schema migration engine (card_db/updater.py). The patch scripts themselves are
external SQL files; a script is modelled by the schema version its execution leaves
in the database, alongside the target version parsed from its file name. -/

/-- Errors raised by the migration engine: MissingPatchError (an intermediate patch
was skipped), PatchIntegrityError (a patch did not set the declared target version)
and MigrationIncompleteError (the final version is outside the compatible range).
All three are ValueError instances in updater.py. -/
inductive UpdateError
  | missingPatch
  | patchIntegrity
  | migrationIncomplete
  deriving DecidableEq, Repr

/-- One patch script inside a patch folder: target is the version parsed from its
file name, result is the schema version left behind by executing its SQL text
(the script is an opaque external file; only this effect is observable). -/
structure PatchScript where
  target : Nat
  result : Nat
  deriving DecidableEq, Repr

/-- One patch folder: src is the source version parsed from the folder name,
patches are the scripts it contains. -/
structure PatchFolder where
  src : Nat
  patches : List PatchScript
  deriving DecidableEq, Repr

/-- Embedding of updater.try_apply_patch: execute the script (leaving the schema
version at its result), then fail with PatchIntegrityError unless the resulting
version equals the target version parsed from the patch file name. -/
def try_apply_patch (p : PatchScript) : Except UpdateError Nat :=
  if p.result ≠ p.target then Except.error UpdateError.patchIntegrity
  else Except.ok p.result

/-- Modelled from the spec: natsort.natural_sorted (card_db/natsort.py is not in
src/). Sorting the patch file names of one folder in descending natural order and
taking the first yields the script whose target version is highest, the first such
script in case of ties. -/
def select_best_patch : List PatchScript → Option PatchScript
  | [] => none
  | p :: ps =>
    match select_best_patch ps with
    | none => some p
    | some q => some (if q.target ≤ p.target then p else q)

/-- Embedding of updater.try_apply_patch_folder: fail with MissingPatchError when the
database version is below the folder's source version, skip when above, and when
equal apply the best (highest-target) patch of the folder if any. Returns the number
of applied patches and the new schema version. -/
def try_apply_patch_folder (v : Nat) (f : PatchFolder) :
    Except UpdateError (Nat × Nat) :=
  if v < f.src then Except.error UpdateError.missingPatch
  else if v > f.src then Except.ok (0, v)
  else
    match select_best_patch f.patches with
    | some p => (try_apply_patch p).map (fun v2 => (1, v2))
    | none => Except.ok (0, v)

/-- Folder-processing loop of updater.update_database_schema: process each folder in
turn, rereading the schema version between folders. -/
def apply_folders (v : Nat) : List PatchFolder → Except UpdateError Nat
  | [] => Except.ok v
  | f :: fs =>
    match try_apply_patch_folder v f with
    | Except.error e => Except.error e
    | Except.ok (_, v2) => apply_folders v2 fs

/-- Embedding of CardDatabase.COMPATIBLE_SCHEMA_VERSIONS = (4, 5) from db.py:
inclusive minimum and exclusive maximum compatible schema versions. -/
structure CompatibleSchemaVersions where
  inclusive_min : Nat
  exclusive_max : Nat
  deriving DecidableEq, Repr

/-- The compatible schema version range of db.py. -/
def COMPATIBLE_SCHEMA_VERSIONS : CompatibleSchemaVersions :=
  { inclusive_min := 4, exclusive_max := 5 }

/-- Insertion step of the stable sort modelling natural_sorted. -/
def insert_folder (f : PatchFolder) : List PatchFolder → List PatchFolder
  | [] => [f]
  | g :: gs => if g.src ≤ f.src then g :: insert_folder f gs else f :: g :: gs

/-- Modelled from the spec for the folder enumeration order: updater.py sorts the
patch folder names with natural_sorted (card_db/natsort.py is not in src/), which on
well-formed semantic version names is ascending numeric order of the parsed source
versions; modelled by a stable insertion sort on the parsed source versions. -/
def sort_patch_folders : List PatchFolder → List PatchFolder
  | [] => []
  | f :: fs => insert_folder f (sort_patch_folders fs)

/-- Embedding of updater.update_database_schema: process all patch folders in
ascending natural order, then fail with MigrationIncompleteError unless the final
version lies in the compatible range. -/
def update_database_schema (v : Nat) (folders : List PatchFolder) :
    Except UpdateError Nat :=
  match apply_folders v (sort_patch_folders folders) with
  | Except.error e => Except.error e
  | Except.ok v2 =>
    if COMPATIBLE_SCHEMA_VERSIONS.inclusive_min ≤ v2 ∧
        v2 < COMPATIBLE_SCHEMA_VERSIONS.exclusive_max then Except.ok v2
    else Except.error UpdateError.migrationIncomplete

/-! Card database state (card_db/db.py together with its SQL schema). -/

/-- Row of the Card table: one row per distinct Scryfall oracle id. -/
structure CardRow where
  english_name : String
  card_type : String
  oracle_id : String
  deriving DecidableEq, Repr

/-- Row of the Card_Set table: one row per distinct set abbreviation. A release
date is a (year, month, day) triple. -/
structure CardSetRow where
  english_name : String
  abbreviation : String
  release_date : Nat × Nat × Nat
  deriving DecidableEq, Repr

/-- Row of the Printing table. The foreign keys Card_ID, Set_ID and Rarity_ID are
carried as the natural keys they are resolved by in the INSERT-SELECT join of
populate_database: the oracle id, the set abbreviation and the rarity name. -/
structure PrintingRow where
  oracle_id : String
  set_abbr : String
  rarity : String
  collector_number : String
  scryfall_id : String
  deriving DecidableEq, Repr

/-- The persistent store: the four tables used by db.py. The Rarity table is a
closed enumeration seeded by the schema script, carried as its list of names. -/
structure DBState where
  cards : List CardRow
  card_sets : List CardSetRow
  rarities : List String
  printings : List PrintingRow
  deriving DecidableEq, Repr

/-- Embedding of CardDatabase.is_database_populated: true iff at least one Printing
row exists. -/
def is_database_populated (db : DBState) : Bool := !db.printings.isEmpty

/-- Row of Printings_View as consumed by the lookup queries. -/
structure ViewRow where
  english_name : String
  abbreviation : String
  collector_number : String
  deriving DecidableEq, Repr

/-- Modelled from the spec: Printings_View of the schema script
(card_db/sql/database_schema.sql is not in src/). The view joins every Printing row
with its Card and Card_Set rows and exposes the English name together with the
lower-cased set abbreviation and lower-cased collector number, matching the
lower-cased lookup side of the queries in db.py. -/
def printings_view (db : DBState) : List ViewRow :=
  db.printings.flatMap (fun p =>
    (db.cards.filter (fun c => c.oracle_id = p.oracle_id)).flatMap (fun c =>
      (db.card_sets.filter (fun s => s.abbreviation = p.set_abbr)).map (fun s =>
        { english_name := c.english_name
          abbreviation := lowerStr s.abbreviation
          collector_number := lowerStr p.collector_number })))

/-- Embedding of the CardNotFoundError (ValueError) raised by the four lookup
methods of db.py, carrying the query parameters of the failed lookup. -/
inductive CardNotFoundError
  | byName (english_name : String)
  | byNameSet (english_name set_abbreviation : String)
  | byNameNumber (english_name collector_number : String)
  | bySetNumber (set_abbreviation collector_number : String)
  deriving DecidableEq, Repr

/-- Embedding of CardDatabase.get_card_set_and_number_for_name: first Printings_View
row with the given English name, returning its set abbreviation and collector
number. -/
def get_card_set_and_number_for_name (db : DBState) (english_name : String) :
    Except CardNotFoundError (String × String) :=
  match (printings_view db).filter (fun r => r.english_name = english_name) with
  | [] => Except.error (CardNotFoundError.byName english_name)
  | r :: _ => Except.ok (r.abbreviation, r.collector_number)

/-- Embedding of CardDatabase.get_collector_number_for_card_in_set: the collector
number of the first Printings_View row with the given English name and the
lower-cased set abbreviation. -/
def get_collector_number_for_card_in_set (db : DBState)
    (english_name set_abbreviation : String) : Except CardNotFoundError String :=
  match (printings_view db).filter (fun r =>
      r.english_name = english_name ∧ r.abbreviation = lowerStr set_abbreviation) with
  | [] => Except.error (CardNotFoundError.byNameSet english_name set_abbreviation)
  | r :: _ => Except.ok r.collector_number

/-- Embedding of CardDatabase.get_card_set_for_card_with_collector_number: the set
abbreviation of the first Printings_View row with the given English name and the
lower-cased collector number. -/
def get_card_set_for_card_with_collector_number (db : DBState)
    (english_name collector_number : String) : Except CardNotFoundError String :=
  match (printings_view db).filter (fun r =>
      r.english_name = english_name ∧
      r.collector_number = lowerStr collector_number) with
  | [] => Except.error (CardNotFoundError.byNameNumber english_name collector_number)
  | r :: _ => Except.ok r.abbreviation

/-- Embedding of CardDatabase.get_english_name_for_card_in_card_set: the English
name of the first Printings_View row with the lower-cased set abbreviation and the
lower-cased collector number. -/
def get_english_name_for_card_in_card_set (db : DBState)
    (set_abbreviation collector_number : String) : Except CardNotFoundError String :=
  match (printings_view db).filter (fun r =>
      r.abbreviation = lowerStr set_abbreviation ∧
      r.collector_number = lowerStr collector_number) with
  | [] => Except.error (CardNotFoundError.bySetNumber set_abbreviation collector_number)
  | r :: _ => Except.ok r.english_name

/-- Embedding of CardDatabase.is_set_abbreviation_known: true iff a Card_Set row
with exactly this abbreviation exists. The query passes the input through without
lower-casing it. -/
def is_set_abbreviation_known (db : DBState) (set_abbreviation : String) : Bool :=
  db.card_sets.any (fun s => s.abbreviation = set_abbreviation)

/-! Database population (CardDatabase.populate_database in card_db/db.py). -/

/-- One Scryfall bulk-data card record as consumed by populate_database; the dict
fields accessed by the loop body. -/
structure CardRecord where
  name : String
  oracle_id : String
  set : String
  set_name : String
  collector_number : String
  id : String
  rarity : String
  type_line : String
  released_at : String
  deriving DecidableEq, Repr

/-- Number of days in a month of a given year, with the Gregorian leap rule. -/
def daysInMonth (y m : Nat) : Nat :=
  if m = 2 then
    if (y % 4 = 0 ∧ y % 100 ≠ 0) ∨ y % 400 = 0 then 29 else 28
  else if m = 4 ∨ m = 6 ∨ m = 9 ∨ m = 11 then 30
  else 31

/-- True for an ASCII decimal digit character. -/
def isDigitChar (c : Char) : Bool := 48 ≤ c.toNat && c.toNat ≤ 57

/-- Model of datetime.date.fromisoformat: accepts exactly a "YYYY-MM-DD" string
denoting a valid calendar date and yields its (year, month, day) triple; any other
string raises a ValueError, modelled by none. -/
def fromisoformat (s : String) : Option (Nat × Nat × Nat) :=
  match s.data with
  | [y1, y2, y3, y4, d1, m1, m2, d2, dd1, dd2] =>
    if (isDigitChar y1 && isDigitChar y2 && isDigitChar y3 && isDigitChar y4 &&
        (d1 = '-') && isDigitChar m1 && isDigitChar m2 && (d2 = '-') &&
        isDigitChar dd1 && isDigitChar dd2) then
      let y := pyIntChars [y1, y2, y3, y4]
      let m := pyIntChars [m1, m2]
      let d := pyIntChars [dd1, dd2]
      if 1 ≤ y ∧ 1 ≤ m ∧ m ≤ 12 ∧ 1 ≤ d ∧ d ≤ daysInMonth y m then some (y, m, d)
      else none
    else none
  | _ => none

/-- Embedding of the expression card["type_line"].split(" - ")[0] in
populate_database (the separator is a spaced em dash): the characters before the
first occurrence of the separator. -/
def split_type_line_chars : List Char → List Char
  | [] => []
  | ' ' :: '—' :: ' ' :: _ => []
  | c :: rest => c :: split_type_line_chars rest

/-- Primary card type of a type line, as computed in populate_database. -/
def split_type_line (s : String) : String := String.mk (split_type_line_chars s.data)

/-- The five basic land names singled out by populate_database. -/
def BASIC_LANDS : List String := ["Plains", "Island", "Swamp", "Mountain", "Forest"]

/-- Rarity string stored for a record by populate_database: "Land" for the five
basic lands, else the title-cased nominal rarity. -/
def effective_rarity (name rarity : String) : String :=
  if name ∈ BASIC_LANDS then "Land" else pyTitle rarity

/-- Errors raised inside the population loop; the date parsing of a new Card_Set
row is the fallible step of the loop body. -/
inductive PopulateError
  | invalidDate (released_at : String)
  deriving DecidableEq, Repr

/-- Card-table step of the populate_database loop body: insert a Card row for the
record's oracle id unless one exists. -/
def ensure_card (db : DBState) (r : CardRecord) : DBState :=
  if db.cards.any (fun c => c.oracle_id = r.oracle_id) then db
  else { db with cards := db.cards ++
    [{ english_name := r.name, card_type := split_type_line r.type_line,
       oracle_id := r.oracle_id }] }

/-- Card_Set-table step of the populate_database loop body: insert a Card_Set row
for the record's set abbreviation unless one exists; parsing the release date of a
new row may raise. -/
def ensure_card_set (db : DBState) (r : CardRecord) : Except PopulateError DBState :=
  if db.card_sets.any (fun s => s.abbreviation = r.set) then Except.ok db
  else
    match fromisoformat r.released_at with
    | none => Except.error (PopulateError.invalidDate r.released_at)
    | some d => Except.ok { db with card_sets := db.card_sets ++
        [{ english_name := r.set_name, abbreviation := r.set, release_date := d }] }

/-- Rows produced by the INSERT-SELECT of populate_database: one Printing row per
tuple of the cross join of Rarity, Card_Set and Card filtered by the rarity name,
the set abbreviation and the oracle id. -/
def printing_insert_rows (db : DBState) (collector scryfall abbr oracle rar : String) :
    List PrintingRow :=
  (db.rarities.filter (fun n => n = rar)).flatMap (fun rname =>
    (db.card_sets.filter (fun s => s.abbreviation = abbr)).flatMap (fun srow =>
      (db.cards.filter (fun c => c.oracle_id = oracle)).map (fun crow =>
        { oracle_id := crow.oracle_id, set_abbr := srow.abbreviation, rarity := rname,
          collector_number := collector, scryfall_id := scryfall })))

/-- Loop body of populate_database for one bulk card record: ensure the Card row,
ensure the Card_Set row, then run the INSERT-SELECT for the Printing rows with the
effective rarity. -/
def process_card (db : DBState) (r : CardRecord) : Except PopulateError DBState :=
  match ensure_card_set (ensure_card db r) r with
  | Except.error e => Except.error e
  | Except.ok db2 =>
    Except.ok
      { db2 with
        printings := db2.printings ++
          printing_insert_rows db2 r.collector_number r.id r.set r.oracle_id
            (effective_rarity r.name r.rarity) }

/-- Insertion loop of populate_database over all bulk card records. -/
def populate_loop (db : DBState) : List CardRecord → Except PopulateError DBState
  | [] => Except.ok db
  | r :: rs =>
    match process_card db r with
    | Except.error e => Except.error e
    | Except.ok db2 => populate_loop db2 rs

/-- Embedding of CardDatabase.populate_database: skip (with a warning) when already
populated, otherwise run the insertion loop in one transaction; on success commit,
on any exception roll the whole transaction back and re-raise. The result is the
visible database state paired with the propagated exception, if any. -/
def populate_database (db : DBState) (records : List CardRecord) :
    DBState × Option PopulateError :=
  if is_database_populated db then (db, none)
  else
    match populate_loop db records with
    | Except.ok db2 => (db2, none)
    | Except.error e => (db, some e)

/-! Deck model and completion algorithm (model.py). -/

/-- Embedding of the Card dataclass of model.py: a single deck-list entry. A str
field that may be None is modelled as an Option; Python truthiness treats both None
and the empty string as absent. -/
structure Card where
  english_name : Option String := none
  set_abbreviation : Option String := none
  collector_number : Option String := none
  language : String := "EN"
  foil : Bool := false
  condition : Option String := none
  deriving DecidableEq, Repr

/-- Python truthiness of an optional string: None and the empty string are falsy. -/
def truthy : Option String → Bool
  | none => false
  | some s => !s.isEmpty

/-- Embedding of the Deck class of model.py: a name, the four zone containers and
the supplemental commanders list. -/
structure Deck where
  name : String := ""
  main_deck : List Card := []
  side_board : List Card := []
  maybe_board : List Card := []
  acquire_bord : List Card := []
  commanders : List Card := []
  deriving DecidableEq, Repr

/-- The four deck zones of model.py. -/
inductive Zone
  | main
  | side
  | maybe
  | acquire
  deriving DecidableEq, Repr

/-- Embedding of Deck._add_to_deck: append the card to the chosen zone container
and, when it is a designated commander, also to the commanders list. -/
def _add_to_deck (d : Deck) (z : Zone) (card : Card) (is_commander : Bool) : Deck :=
  let d :=
    match z with
    | Zone.main => { d with main_deck := d.main_deck ++ [card] }
    | Zone.side => { d with side_board := d.side_board ++ [card] }
    | Zone.maybe => { d with maybe_board := d.maybe_board ++ [card] }
    | Zone.acquire => { d with acquire_bord := d.acquire_bord ++ [card] }
  if is_commander then { d with commanders := d.commanders ++ [card] } else d

/-- Embedding of Deck.add_to_main_deck. -/
def Deck.add_to_main_deck (d : Deck) (card : Card) (is_commander : Bool := false) :
    Deck := _add_to_deck d Zone.main card is_commander

/-- Embedding of Deck.add_to_side_board. -/
def Deck.add_to_side_board (d : Deck) (card : Card) (is_commander : Bool := false) :
    Deck := _add_to_deck d Zone.side card is_commander

/-- Embedding of Deck.add_to_maybe_board. -/
def Deck.add_to_maybe_board (d : Deck) (card : Card) (is_commander : Bool := false) :
    Deck := _add_to_deck d Zone.maybe card is_commander

/-- Embedding of Deck.add_to_acquire_board. -/
def Deck.add_to_acquire_board (d : Deck) (card : Card) (is_commander : Bool := false) :
    Deck := _add_to_deck d Zone.acquire card is_commander

/-- One recorded call to an add_to_... method: the zone, the card and the
is_commander flag. -/
structure AddOp where
  zone : Zone
  card : Card
  is_commander : Bool
  deriving DecidableEq, Repr

/-- Replay a sequence of add_to_... calls on a deck. -/
def run_adds (d : Deck) (ops : List AddOp) : Deck :=
  ops.foldl (fun d op => _add_to_deck d op.zone op.card op.is_commander) d

/-- Embedding of Deck._fill_information_for_card: the decision procedure that
resolves the missing fields of one card against the card database. -/
def _fill_information_for_card (card : Card) (card_db : DBState) :
    Except CardNotFoundError Card :=
  if truthy card.english_name then
    if (!truthy card.set_abbreviation && !truthy card.collector_number)
        || (truthy card.set_abbreviation &&
            !is_set_abbreviation_known card_db (card.set_abbreviation.getD "")) then
      match get_card_set_and_number_for_name card_db (card.english_name.getD "") with
      | Except.error e => Except.error e
      | Except.ok (s, n) =>
        Except.ok { card with set_abbreviation := some s, collector_number := some n }
    else if !truthy card.collector_number then
      match get_collector_number_for_card_in_set card_db (card.english_name.getD "")
          (card.set_abbreviation.getD "") with
      | Except.error e => Except.error e
      | Except.ok n => Except.ok { card with collector_number := some n }
    else if !truthy card.set_abbreviation then
      match get_card_set_for_card_with_collector_number card_db
          (card.english_name.getD "") (card.collector_number.getD "") with
      | Except.error e => Except.error e
      | Except.ok s => Except.ok { card with set_abbreviation := some s }
    else Except.ok card
  else
    if truthy card.set_abbreviation && truthy card.collector_number then
      match get_english_name_for_card_in_card_set card_db
          (card.set_abbreviation.getD "") (card.collector_number.getD "") with
      | Except.error e => Except.error e
      | Except.ok n => Except.ok { card with english_name := some n }
    else Except.ok card

/-- In-order traversal of one zone container by Deck.fill_missing_information; a
lookup failure aborts the whole traversal. -/
def fill_zone (card_db : DBState) : List Card → Except CardNotFoundError (List Card)
  | [] => Except.ok []
  | c :: cs =>
    match _fill_information_for_card c card_db with
    | Except.error e => Except.error e
    | Except.ok c2 =>
      match fill_zone card_db cs with
      | Except.error e => Except.error e
      | Except.ok cs2 => Except.ok (c2 :: cs2)

/-- Embedding of Deck.fill_missing_information: fill every card of the four zone
containers in chain order (main deck, side board, maybe board, acquire board); the
name and the commanders list are not touched. -/
def fill_missing_information (d : Deck) (card_db : DBState) :
    Except CardNotFoundError Deck :=
  match fill_zone card_db d.main_deck with
  | Except.error e => Except.error e
  | Except.ok m =>
    match fill_zone card_db d.side_board with
    | Except.error e => Except.error e
    | Except.ok s =>
      match fill_zone card_db d.maybe_board with
      | Except.error e => Except.error e
      | Except.ok mb =>
        match fill_zone card_db d.acquire_bord with
        | Except.error e => Except.error e
        | Except.ok aq =>
          Except.ok { d with main_deck := m, side_board := s,
                             maybe_board := mb, acquire_bord := aq }

/-! Helper lemmas about the embedded Python string primitives. -/

theorem charOfNat_toNat (n : Nat) (h : n < 1000) : (Char.ofNat n).toNat = n := by
  have h2 : n < 55296 ∨ 57343 < n ∧ n < 1114112 := by omega
  simp [Char.ofNat, dif_pos h2, Char.ofNatAux, Char.toNat, UInt32.toNat, BitVec.toNat_ofNatLt]

theorem digitChar_toNat (d : Nat) (h : d < 10) : (digitChar d).toNat = 48 + d := by
  unfold digitChar; rw [charOfNat_toNat]; omega

theorem natChars_digits (n : Nat) : ∀ c ∈ natChars n, 48 ≤ c.toNat ∧ c.toNat ≤ 57 := by
  induction n using Nat.strong_induction_on with
  | _ n ih =>
    rw [natChars]
    split
    · intro c hc
      simp only [List.mem_singleton] at hc
      subst hc
      rw [digitChar_toNat _ (by omega)]
      omega
    · intro c hc
      rcases List.mem_append.mp hc with h1 | h2
      · exact ih (n / 10) (Nat.div_lt_self (by omega) (by omega)) c h1
      · simp only [List.mem_singleton] at h2
        subst h2
        rw [digitChar_toNat _ (by omega)]
        omega

theorem natChars_ne_nil (n : Nat) : natChars n ≠ [] := by
  rw [natChars]
  split
  · simp
  · simp

theorem pyIntChars_append_one (cs : List Char) (c : Char) :
    pyIntChars (cs ++ [c]) = 10 * pyIntChars cs + (c.toNat - 48) := by
  unfold pyIntChars
  rw [List.foldl_append]
  rfl

theorem pyIntChars_natChars (n : Nat) : pyIntChars (natChars n) = n := by
  induction n using Nat.strong_induction_on with
  | _ n ih =>
    rw [natChars]
    split
    · show pyIntChars [digitChar n] = n
      unfold pyIntChars
      simp [digitChar_toNat n (by omega)]
    · rw [pyIntChars_append_one, ih (n / 10) (Nat.div_lt_self (by omega) (by omega)),
        digitChar_toNat _ (by omega)]
      omega

theorem dot_not_mem_natChars (n : Nat) : '.' ∉ natChars n := by
  intro h
  have := natChars_digits n '.' h
  have h46 : ('.').toNat = 46 := rfl
  omega

theorem splitCharsOn_no_sep (sep : Char) (cs : List Char) (h : sep ∉ cs) :
    splitCharsOn sep cs = [cs] := by
  induction cs with
  | nil => rfl
  | cons c rest ih =>
    have hc : c ≠ sep := fun hcc => h (hcc ▸ List.mem_cons_self c rest)
    have hr : sep ∉ rest := fun hrr => h (List.mem_cons_of_mem c hrr)
    unfold splitCharsOn
    rw [if_neg hc, ih hr]

theorem splitCharsOn_cons_sep (sep : Char) (a rest : List Char) (h : sep ∉ a) :
    splitCharsOn sep (a ++ sep :: rest) = a :: splitCharsOn sep rest := by
  induction a with
  | nil =>
    show splitCharsOn sep (sep :: rest) = [] :: splitCharsOn sep rest
    rw [splitCharsOn, if_pos rfl]
  | cons c a2 ih =>
    have hc : c ≠ sep := fun hcc => h (hcc ▸ List.mem_cons_self c a2)
    have ha : sep ∉ a2 := fun hrr => h (List.mem_cons_of_mem c hrr)
    show splitCharsOn sep (c :: (a2 ++ sep :: rest)) = (c :: a2) :: splitCharsOn sep rest
    rw [splitCharsOn, if_neg hc, ih ha]

theorem mk_append (a b : List Char) : String.mk a ++ String.mk b = String.mk (a ++ b) := rfl

theorem triString_chars (M m p : Nat) :
    ∀ c ∈ (triString M m p).data, (48 ≤ c.toNat ∧ c.toNat ≤ 57) ∨ c = '.' := by
  intro c hc
  show (48 ≤ c.toNat ∧ c.toNat ≤ 57) ∨ c = '.'
  have hdata : (triString M m p).data =
      natChars M ++ '.' :: (natChars m ++ '.' :: natChars p) := rfl
  rw [hdata] at hc
  rcases List.mem_append.mp hc with h1 | h2
  · exact Or.inl (natChars_digits M c h1)
  · rcases List.mem_cons.mp h2 with h3 | h4
    · exact Or.inr h3
    · rcases List.mem_append.mp h4 with h5 | h6
      · exact Or.inl (natChars_digits m c h5)
      · rcases List.mem_cons.mp h6 with h7 | h8
        · exact Or.inr h7
        · exact Or.inl (natChars_digits p c h8)

theorem triString_not_endswith_sql (M m p : Nat) :
    pyEndsWith (triString M m p) ".sql" = false := by
  unfold pyEndsWith
  rw [Bool.and_eq_false_iff]
  by_cases hlen : (".sql".data).length ≤ ((triString M m p).data).length
  · right
    rw [decide_eq_false_iff_not]
    intro hdrop
    have hmem : 's' ∈ (triString M m p).data := by
      apply List.mem_of_mem_drop (n := (triString M m p).data.length - (".sql".data).length)
      rw [hdrop]
      show 's' ∈ ['.', 's', 'q', 'l']
      simp
    rcases triString_chars M m p 's' hmem with h1 | h2
    · have : ('s').toNat = 115 := rfl
      omega
    · exact absurd h2 (by decide)
  · left
    rw [decide_eq_false_iff_not]
    exact hlen

theorem strip_end_triString (M m p : Nat) :
    strip_end (triString M m p) ".sql" = triString M m p := by
  unfold strip_end
  rw [triString_not_endswith_sql]
  rfl

theorem parse_patch_name_triString (M m p : Nat) :
    parse_patch_name (triString M m p) = p + 1000 * m + 1000000 * M := by
  unfold parse_patch_name
  rw [strip_end_triString]
  show base1000_sum
    (((splitCharsOn '.' (triString M m p).data).map pyIntChars).reverse) =
    p + 1000 * m + 1000000 * M
  have hdata : (triString M m p).data =
      natChars M ++ '.' :: (natChars m ++ '.' :: natChars p) := rfl
  rw [hdata, splitCharsOn_cons_sep _ _ _ (dot_not_mem_natChars M),
    splitCharsOn_cons_sep _ _ _ (dot_not_mem_natChars m),
    splitCharsOn_no_sep _ _ (dot_not_mem_natChars p)]
  show base1000_sum [pyIntChars (natChars p), pyIntChars (natChars m),
    pyIntChars (natChars M)] = p + 1000 * m + 1000000 * M
  rw [pyIntChars_natChars, pyIntChars_natChars, pyIntChars_natChars]
  show p + 1000 * (m + 1000 * (M + 1000 * 0)) = p + 1000 * m + 1000000 * M
  ring

theorem versionDigits_zero : versionDigits 0 = [] := by
  rw [versionDigits]
  simp

theorem versionDigits_pos (n : Nat) (h : n ≠ 0) :
    versionDigits n = natStr (n % 1000) :: versionDigits (n / 1000) := by
  rw [versionDigits]
  exact dif_neg h

theorem stringDataEq (s t : String) (h : s.data = t.data) : s = t := by
  cases s; cases t; exact congrArg String.mk h

theorem pyJoinDot_three (a b c : List Char) :
    pyJoinDot [String.mk a, String.mk b, String.mk c] =
      String.mk (a ++ '.' :: (b ++ '.' :: c)) := by
  apply stringDataEq
  show (String.mk a ++ "." ++ (String.mk b ++ "." ++ String.mk c)).data =
    a ++ '.' :: (b ++ '.' :: c)
  simp [String.data_append]

theorem natChars_zero : natChars 0 = ['0'] := by
  rw [natChars]
  norm_num
  decide

theorem version_str_encode (M m p : Nat) (hM : M ≤ 999) (hm : m ≤ 999) (hp : p ≤ 999) :
    version_str (p + 1000 * m + 1000000 * M) = triString M m p := by
  by_cases hM0 : M = 0
  · subst hM0
    by_cases hm0 : m = 0
    · subst hm0
      by_cases hp0 : p = 0
      · subst hp0
        have hd : versionDigits (0 + 1000 * 0 + 1000000 * 0) = [] := versionDigits_zero
        show pyJoinDot ((versionDigits (0 + 1000 * 0 + 1000000 * 0) ++
          List.replicate (3 - (versionDigits (0 + 1000 * 0 + 1000000 * 0)).length) "0").reverse) =
          triString 0 0 0
        rw [hd]
        show pyJoinDot [String.mk ['0'], String.mk ['0'], String.mk ['0']] = triString 0 0 0
        rw [pyJoinDot_three]
        show String.mk (['0'] ++ '.' :: (['0'] ++ '.' :: ['0'])) =
          String.mk (natChars 0 ++ '.' :: (natChars 0 ++ '.' :: natChars 0))
        rw [natChars_zero]
      · have hn : p + 1000 * 0 + 1000000 * 0 ≠ 0 := by omega
        have hd : versionDigits (p + 1000 * 0 + 1000000 * 0) = [natStr p] := by
          rw [versionDigits_pos _ hn]
          have e1 : (p + 1000 * 0 + 1000000 * 0) % 1000 = p := by omega
          have e2 : (p + 1000 * 0 + 1000000 * 0) / 1000 = 0 := by omega
          rw [e1, e2, versionDigits_zero]
        show pyJoinDot ((versionDigits (p + 1000 * 0 + 1000000 * 0) ++
          List.replicate (3 - (versionDigits (p + 1000 * 0 + 1000000 * 0)).length) "0").reverse) =
          triString 0 0 p
        rw [hd]
        show pyJoinDot [String.mk ['0'], String.mk ['0'], natStr p] = triString 0 0 p
        rw [show natStr p = String.mk (natChars p) from rfl, pyJoinDot_three]
        show String.mk (['0'] ++ '.' :: (['0'] ++ '.' :: natChars p)) =
          String.mk (natChars 0 ++ '.' :: (natChars 0 ++ '.' :: natChars p))
        rw [natChars_zero]
    · have hn : p + 1000 * m + 1000000 * 0 ≠ 0 := by omega
      have hd : versionDigits (p + 1000 * m + 1000000 * 0) = [natStr p, natStr m] := by
        rw [versionDigits_pos _ hn]
        have e1 : (p + 1000 * m + 1000000 * 0) % 1000 = p := by omega
        have e2 : (p + 1000 * m + 1000000 * 0) / 1000 = m := by omega
        rw [e1, e2, versionDigits_pos _ hm0]
        have e3 : m % 1000 = m := by omega
        have e4 : m / 1000 = 0 := by omega
        rw [e3, e4, versionDigits_zero]
      show pyJoinDot ((versionDigits (p + 1000 * m + 1000000 * 0) ++
        List.replicate (3 - (versionDigits (p + 1000 * m + 1000000 * 0)).length) "0").reverse) =
        triString 0 m p
      rw [hd]
      show pyJoinDot [String.mk ['0'], natStr m, natStr p] = triString 0 m p
      rw [show natStr m = String.mk (natChars m) from rfl,
        show natStr p = String.mk (natChars p) from rfl, pyJoinDot_three]
      show String.mk (['0'] ++ '.' :: (natChars m ++ '.' :: natChars p)) =
        String.mk (natChars 0 ++ '.' :: (natChars m ++ '.' :: natChars p))
      rw [natChars_zero]
  · have hn : p + 1000 * m + 1000000 * M ≠ 0 := by omega
    have hd : versionDigits (p + 1000 * m + 1000000 * M) =
        [natStr p, natStr m, natStr M] := by
      rw [versionDigits_pos _ hn]
      have e1 : (p + 1000 * m + 1000000 * M) % 1000 = p := by omega
      have e2 : (p + 1000 * m + 1000000 * M) / 1000 = m + 1000 * M := by omega
      rw [e1, e2]
      have hn2 : m + 1000 * M ≠ 0 := by omega
      rw [versionDigits_pos _ hn2]
      have e3 : (m + 1000 * M) % 1000 = m := by omega
      have e4 : (m + 1000 * M) / 1000 = M := by omega
      rw [e3, e4, versionDigits_pos _ hM0]
      have e5 : M % 1000 = M := by omega
      have e6 : M / 1000 = 0 := by omega
      rw [e5, e6, versionDigits_zero]
    show pyJoinDot ((versionDigits (p + 1000 * m + 1000000 * M) ++
      List.replicate (3 - (versionDigits (p + 1000 * m + 1000000 * M)).length) "0").reverse) =
      triString M m p
    rw [hd]
    show pyJoinDot [natStr M, natStr m, natStr p] = triString M m p
    exact pyJoinDot_three (natChars M) (natChars m) (natChars p)

theorem triString_zero : triString 0 0 0 = "0.0.0" := by
  apply stringDataEq
  show natChars 0 ++ '.' :: (natChars 0 ++ '.' :: natChars 0) = "0.0.0".data
  rw [natChars_zero]
  rfl

/-- C6 (amended): for every (major, minor, patch) with all three components in
[0, 999], decoding the encoded integer with version_str yields the original dotted
three-part version string back, and decoding the integer 0 yields "0.0.0". (The
claim's original major range [0, 9999] fails for majors of four digits, see the
counterexample.) -/
theorem version_codec_round_trip (M m p : Nat)
    (hM : M ≤ 999) (hm : m ≤ 999) (hp : p ≤ 999) :
    version_str (parse_patch_name (triString M m p)) = triString M m p ∧
    version_str 0 = "0.0.0" := by
  constructor
  · rw [parse_patch_name_triString]
    exact version_str_encode M m p hM hm hp
  · have h := version_str_encode 0 0 0 (by omega) (by omega) (by omega)
    rw [triString_zero] at h
    simpa using h

/-- Witness for C6 at the triple (12, 34, 56). -/
theorem version_codec_round_trip_witness :
    (12 ≤ 999 ∧ 34 ≤ 999 ∧ 56 ≤ 999) ∧
    (version_str (parse_patch_name (triString 12 34 56)) = triString 12 34 56 ∧
      version_str 0 = "0.0.0") :=
  ⟨⟨by decide, by decide, by decide⟩,
    version_codec_round_trip 12 34 56 (by decide) (by decide) (by decide)⟩

/-- Counterexample for C6 as stated: the triple (1000, 0, 0) lies inside the
claimed major range [0, 9999], its version string is "1000.0.0" and it encodes to
1000000000, but version_str renders that integer as the four-part string
"1.0.0.0", not the original string. -/
theorem version_codec_round_trip_fails_at_major_1000 :
    triString 1000 0 0 = "1000.0.0" ∧
    version_str (parse_patch_name (triString 1000 0 0)) = "1.0.0.0" ∧
    version_str (parse_patch_name (triString 1000 0 0)) ≠ triString 1000 0 0 := by
  have h1000 : natChars 1000 = ['1', '0', '0', '0'] := by
    rw [natChars]
    norm_num
    rw [natChars]
    norm_num
    rw [natChars]
    norm_num
    rw [natChars]
    norm_num
    decide
  have h1 : triString 1000 0 0 = "1000.0.0" := by
    apply stringDataEq
    show natChars 1000 ++ '.' :: (natChars 0 ++ '.' :: natChars 0) = "1000.0.0".data
    rw [h1000, natChars_zero]
    rfl
  have hp : parse_patch_name (triString 1000 0 0) = 1000000000 := by
    rw [parse_patch_name_triString]
  have hd : versionDigits 1000000000 = [natStr 0, natStr 0, natStr 0, natStr 1] := by
    rw [versionDigits_pos _ (by norm_num)]
    norm_num
    rw [versionDigits_pos _ (by norm_num)]
    norm_num
    rw [versionDigits_pos _ (by norm_num)]
    norm_num
    rw [versionDigits_pos _ (by norm_num)]
    norm_num
    exact versionDigits_zero
  have h2 : version_str 1000000000 = "1.0.0.0" := by
    show pyJoinDot ((versionDigits 1000000000 ++
      List.replicate (3 - (versionDigits 1000000000).length) "0").reverse) = "1.0.0.0"
    rw [hd]
    show natStr 1 ++ "." ++ (natStr 0 ++ "." ++ (natStr 0 ++ "." ++ natStr 0)) = "1.0.0.0"
    have hn1 : natStr 1 = "1" := by
      apply stringDataEq
      show natChars 1 = "1".data
      rw [natChars]
      norm_num
      decide
    have hn0 : natStr 0 = "0" := by
      apply stringDataEq
      show natChars 0 = "0".data
      rw [natChars_zero]
    rw [hn1, hn0]
    rfl
  refine ⟨h1, by rw [hp]; exact h2, ?_⟩
  rw [hp, h1, h2]
  intro hcontra
  have := congrArg String.data hcontra
  simp at this

/-- C7: a theorem evaluating the code at an out-of-range input. parse_patch_name
raises no error for the out-of-range triple (0, 1000, 0): it silently encodes
"0.1000.0" to 1000000, which collides with the encoding of the distinct in-range
triple (1, 0, 0). -/
theorem parse_patch_name_overflow_collides :
    parse_patch_name "0.1000.0" = 1000000 ∧ parse_patch_name "1.0.0" = 1000000 :=
  ⟨rfl, rfl⟩

/-! Claim C3: casing behaviour of the lookups. -/

/-- Database state with a single Card_Set row whose stored abbreviation is the
mixed-case string "M19". -/
def dbCaseSens : DBState :=
  { cards := [],
    card_sets := [{ english_name := "Magic 2019", abbreviation := "M19",
                    release_date := (2018, 7, 13) }],
    rarities := [],
    printings := [] }

/-- Counterexample for C3 as stated: is_set_abbreviation_known does not lower-case
its input, so on a store holding the abbreviation "M19" it answers true for "M19"
but false for "m19" = "M19".lower(). -/
theorem is_set_abbreviation_known_not_case_insensitive :
    is_set_abbreviation_known dbCaseSens "M19" = true ∧
    is_set_abbreviation_known dbCaseSens (lowerStr "M19") = false := by
  decide

/-- C3 (amended): the (name, set), (name, number) and (set, number) lookups
lower-case their set-abbreviation and collector-number arguments before matching,
so their outcome (the resolved value, or a miss) is identical for any casing of
those arguments; only the query parameters echoed inside a CardNotFoundError keep
the original casing. is_set_abbreviation_known, by contrast, compares its raw input
case-sensitively (see the counterexample). -/
theorem lookup_casing (db : DBState) (english_name s t n u : String)
    (hs : lowerStr s = lowerStr t) (hn : lowerStr n = lowerStr u) :
    (get_collector_number_for_card_in_set db english_name s).toOption =
      (get_collector_number_for_card_in_set db english_name t).toOption ∧
    (get_card_set_for_card_with_collector_number db english_name n).toOption =
      (get_card_set_for_card_with_collector_number db english_name u).toOption ∧
    (get_english_name_for_card_in_card_set db s n).toOption =
      (get_english_name_for_card_in_card_set db t u).toOption := by
  refine ⟨?_, ?_, ?_⟩
  · unfold get_collector_number_for_card_in_set
    rw [hs]
    cases (printings_view db).filter (fun r =>
        r.english_name = english_name ∧ r.abbreviation = lowerStr t) with
    | nil => rfl
    | cons r rest => rfl
  · unfold get_card_set_for_card_with_collector_number
    rw [hn]
    cases (printings_view db).filter (fun r =>
        r.english_name = english_name ∧ r.collector_number = lowerStr u) with
    | nil => rfl
    | cons r rest => rfl
  · unfold get_english_name_for_card_in_card_set
    rw [hs, hn]
    cases (printings_view db).filter (fun r =>
        r.abbreviation = lowerStr t ∧ r.collector_number = lowerStr u) with
    | nil => rfl
    | cons r rest => rfl

/-- Witness for C3 at concrete differently-cased inputs. -/
theorem lookup_casing_witness :
    (lowerStr "M19" = lowerStr "m19" ∧ lowerStr "86A" = lowerStr "86a") ∧
    ((get_collector_number_for_card_in_set dbCaseSens "Island" "M19").toOption =
      (get_collector_number_for_card_in_set dbCaseSens "Island" "m19").toOption ∧
    (get_card_set_for_card_with_collector_number dbCaseSens "Island" "86A").toOption =
      (get_card_set_for_card_with_collector_number dbCaseSens "Island" "86a").toOption ∧
    (get_english_name_for_card_in_card_set dbCaseSens "M19" "86A").toOption =
      (get_english_name_for_card_in_card_set dbCaseSens "m19" "86a").toOption) :=
  ⟨⟨by decide, by decide⟩,
    lookup_casing dbCaseSens "Island" "M19" "m19" "86A" "86a" (by decide) (by decide)⟩

/-! Claim C5: the migration engine's decision procedure. -/

theorem select_best_patch_none (ps : List PatchScript)
    (h : select_best_patch ps = none) : ps = [] := by
  cases ps with
  | nil => rfl
  | cons p rest =>
    unfold select_best_patch at h
    cases hr : select_best_patch rest with
    | none => rw [hr] at h; simp at h
    | some q => rw [hr] at h; simp at h

theorem select_best_patch_spec (ps : List PatchScript) (p : PatchScript)
    (h : select_best_patch ps = some p) :
    p ∈ ps ∧ ∀ q ∈ ps, q.target ≤ p.target := by
  induction ps generalizing p with
  | nil => simp [select_best_patch] at h
  | cons p0 rest ih =>
    unfold select_best_patch at h
    cases hr : select_best_patch rest with
    | none =>
      rw [hr] at h
      have hrest := select_best_patch_none rest hr
      subst hrest
      simp only [Option.some.injEq] at h
      subst h
      refine ⟨by simp, ?_⟩
      intro q hq
      simp only [List.mem_singleton] at hq
      subst hq
      exact le_refl _
    | some q =>
      rw [hr] at h
      simp only [Option.some.injEq] at h
      obtain ⟨hqmem, hqmax⟩ := ih q hr
      by_cases hcmp : q.target ≤ p0.target
      · rw [if_pos hcmp] at h
        subst h
        refine ⟨List.mem_cons_self _ _, ?_⟩
        intro r hr2
        rcases List.mem_cons.mp hr2 with h1 | h2
        · subst h1; exact le_refl _
        · exact le_trans (hqmax r h2) hcmp
      · rw [if_neg hcmp] at h
        subst h
        refine ⟨List.mem_cons_of_mem p0 hqmem, ?_⟩
        intro r hr2
        rcases List.mem_cons.mp hr2 with h1 | h2
        · subst h1; omega
        · exact hqmax r h2

/-- C5: the decision procedure of the migration engine. For each patch group (the
groups being processed in ascending source-version order by sort_patch_folders
inside update_database_schema): a database version below the group's source version
is a MissingPatchError; above, the group is skipped unchanged; at the exact source
version an empty group is a permitted no-op, and otherwise the selected patch is
one with the highest target version in the group, after which the resulting schema
version must equal the declared target or the migration fails with
PatchIntegrityError; finally, after all groups the resulting version must lie in
[inclusive_min, exclusive_max) of COMPATIBLE_SCHEMA_VERSIONS, or
update_database_schema fails with MigrationIncompleteError. -/
theorem update_schema_decision (v v2 : Nat) (f : PatchFolder) (p : PatchScript)
    (folders : List PatchFolder) :
    (v < f.src → try_apply_patch_folder v f = Except.error UpdateError.missingPatch) ∧
    (f.src < v → try_apply_patch_folder v f = Except.ok (0, v)) ∧
    (f.patches = [] → try_apply_patch_folder f.src f = Except.ok (0, f.src)) ∧
    (select_best_patch f.patches = some p →
      (p ∈ f.patches ∧ ∀ q ∈ f.patches, q.target ≤ p.target) ∧
      (p.result = p.target → try_apply_patch_folder f.src f = Except.ok (1, p.target)) ∧
      (p.result ≠ p.target →
        try_apply_patch_folder f.src f = Except.error UpdateError.patchIntegrity)) ∧
    (apply_folders v (sort_patch_folders folders) = Except.ok v2 →
      (COMPATIBLE_SCHEMA_VERSIONS.inclusive_min ≤ v2 ∧
          v2 < COMPATIBLE_SCHEMA_VERSIONS.exclusive_max →
        update_database_schema v folders = Except.ok v2) ∧
      (¬(COMPATIBLE_SCHEMA_VERSIONS.inclusive_min ≤ v2 ∧
          v2 < COMPATIBLE_SCHEMA_VERSIONS.exclusive_max) →
        update_database_schema v folders = Except.error UpdateError.migrationIncomplete)) := by
  refine ⟨?_, ?_, ?_, ?_, ?_⟩
  · intro hlt
    unfold try_apply_patch_folder
    rw [if_pos hlt]
  · intro hgt
    unfold try_apply_patch_folder
    rw [if_neg (by omega), if_pos hgt]
  · intro hempty
    unfold try_apply_patch_folder
    rw [if_neg (by omega), if_neg (by omega), hempty]
    rfl
  · intro hsel
    refine ⟨select_best_patch_spec f.patches p hsel, ?_, ?_⟩
    · intro hres
      unfold try_apply_patch_folder
      rw [if_neg (by omega), if_neg (by omega), hsel]
      show (try_apply_patch p).map (fun v2 => (1, v2)) = Except.ok (1, p.target)
      unfold try_apply_patch
      rw [if_neg (by simp [hres])]
      simp [Except.map, hres]
    · intro hres
      unfold try_apply_patch_folder
      rw [if_neg (by omega), if_neg (by omega), hsel]
      show (try_apply_patch p).map (fun v2 => (1, v2)) = Except.error UpdateError.patchIntegrity
      unfold try_apply_patch
      rw [if_pos hres]
      rfl
  · intro happly
    constructor
    · intro hrange
      unfold update_database_schema
      rw [happly]
      show (if COMPATIBLE_SCHEMA_VERSIONS.inclusive_min ≤ v2 ∧
          v2 < COMPATIBLE_SCHEMA_VERSIONS.exclusive_max then Except.ok v2
        else Except.error UpdateError.migrationIncomplete) = Except.ok v2
      rw [if_pos hrange]
    · intro hrange
      unfold update_database_schema
      rw [happly]
      show (if COMPATIBLE_SCHEMA_VERSIONS.inclusive_min ≤ v2 ∧
          v2 < COMPATIBLE_SCHEMA_VERSIONS.exclusive_max then Except.ok v2
        else Except.error UpdateError.migrationIncomplete) =
        Except.error UpdateError.migrationIncomplete
      rw [if_neg hrange]

/-- Witness for C5: all decision branches exercised on concrete folders. -/
theorem update_schema_decision_witness :
    try_apply_patch_folder 1 (PatchFolder.mk 2 []) =
      Except.error UpdateError.missingPatch ∧
    try_apply_patch_folder 3 (PatchFolder.mk 2 []) = Except.ok (0, 3) ∧
    try_apply_patch_folder 2 (PatchFolder.mk 2 []) = Except.ok (0, 2) ∧
    (PatchScript.mk 3 3).target ≤ (PatchScript.mk 4 4).target ∧
    try_apply_patch_folder 2 (PatchFolder.mk 2 [PatchScript.mk 4 4, PatchScript.mk 3 3]) =
      Except.ok (1, 4) ∧
    try_apply_patch_folder 2 (PatchFolder.mk 2 [PatchScript.mk 5 4]) =
      Except.error UpdateError.patchIntegrity ∧
    update_database_schema 0 [PatchFolder.mk 0 [PatchScript.mk 4 4]] = Except.ok 4 ∧
    update_database_schema 0 [PatchFolder.mk 0 [PatchScript.mk 7 7]] =
      Except.error UpdateError.migrationIncomplete :=
  ⟨(update_schema_decision 1 0 (PatchFolder.mk 2 []) (PatchScript.mk 0 0) []).1
      (by decide),
   (update_schema_decision 3 0 (PatchFolder.mk 2 []) (PatchScript.mk 0 0) []).2.1
      (by decide),
   (update_schema_decision 2 0 (PatchFolder.mk 2 []) (PatchScript.mk 0 0) []).2.2.1
      (by decide),
   ((update_schema_decision 2 0 (PatchFolder.mk 2 [PatchScript.mk 4 4, PatchScript.mk 3 3])
      (PatchScript.mk 4 4) []).2.2.2.1 rfl).1.2 (PatchScript.mk 3 3) (by decide),
   ((update_schema_decision 2 0 (PatchFolder.mk 2 [PatchScript.mk 4 4, PatchScript.mk 3 3])
      (PatchScript.mk 4 4) []).2.2.2.1 rfl).2.1 (by decide),
   ((update_schema_decision 2 0 (PatchFolder.mk 2 [PatchScript.mk 5 4])
      (PatchScript.mk 5 4) []).2.2.2.1 rfl).2.2 (by decide),
   ((update_schema_decision 0 4 (PatchFolder.mk 0 []) (PatchScript.mk 0 0)
      [PatchFolder.mk 0 [PatchScript.mk 4 4]]).2.2.2.2 (by rfl)).1 (by decide),
   ((update_schema_decision 0 7 (PatchFolder.mk 0 []) (PatchScript.mk 0 0)
      [PatchFolder.mk 0 [PatchScript.mk 7 7]]).2.2.2.2 (by rfl)).2 (by decide)⟩

/-! Claims C2, C4 and C8: properties of populate_database. -/

theorem ensure_card_spec (db : DBState) (r : CardRecord) :
    (ensure_card db r).card_sets = db.card_sets ∧
    (ensure_card db r).rarities = db.rarities ∧
    (ensure_card db r).printings = db.printings ∧
    (∃ cs, (ensure_card db r).cards = db.cards ++ cs) ∧
    (ensure_card db r).cards.any (fun c => c.oracle_id = r.oracle_id) = true := by
  unfold ensure_card
  by_cases h : db.cards.any (fun c => c.oracle_id = r.oracle_id) = true
  · rw [if_pos h]
    exact ⟨rfl, rfl, rfl, ⟨[], by simp⟩, h⟩
  · rw [if_neg h]
    refine ⟨rfl, rfl, rfl, ⟨_, rfl⟩, ?_⟩
    rw [List.any_append]
    simp

theorem ensure_card_set_spec (db : DBState) (r : CardRecord) (dbm : DBState)
    (h : ensure_card_set db r = Except.ok dbm) :
    dbm.cards = db.cards ∧
    dbm.rarities = db.rarities ∧
    dbm.printings = db.printings ∧
    (∃ ss, dbm.card_sets = db.card_sets ++ ss) ∧
    dbm.card_sets.any (fun s => s.abbreviation = r.set) = true := by
  unfold ensure_card_set at h
  by_cases hk : db.card_sets.any (fun s => s.abbreviation = r.set) = true
  · rw [if_pos hk] at h
    simp only [Except.ok.injEq] at h
    subst h
    exact ⟨rfl, rfl, rfl, ⟨[], by simp⟩, hk⟩
  · rw [if_neg hk] at h
    cases hd : fromisoformat r.released_at with
    | none => rw [hd] at h; exact absurd h (by simp)
    | some d =>
      rw [hd] at h
      simp only [Except.ok.injEq] at h
      subst h
      refine ⟨rfl, rfl, rfl, ⟨_, rfl⟩, ?_⟩
      rw [List.any_append]
      simp

theorem printing_insert_rows_rarity (db : DBState)
    (collector scryfall abbr oracle rar : String) (row : PrintingRow)
    (h : row ∈ printing_insert_rows db collector scryfall abbr oracle rar) :
    row.rarity = rar := by
  unfold printing_insert_rows at h
  rcases List.mem_flatMap.mp h with ⟨rname, hrmem, h2⟩
  rcases List.mem_flatMap.mp h2 with ⟨srow, _, h3⟩
  rcases List.mem_map.mp h3 with ⟨crow, _, h4⟩
  have hr : rname = rar := by
    have := (List.mem_filter.mp hrmem).2
    simpa using this
  rw [← h4, hr]

/-- C8: during population, the rarity stored in every Printing row inserted for a
bulk record is "Land" when the record's name is one of the five basic lands,
regardless of the nominal rarity, and the title-cased nominal rarity string
otherwise. -/
theorem process_card_rarity (db : DBState) (r : CardRecord) (db2 : DBState)
    (h : process_card db r = Except.ok db2) :
    ∀ row ∈ db2.printings, row ∈ db.printings ∨
      row.rarity = (if r.name = "Plains" ∨ r.name = "Island" ∨ r.name = "Swamp" ∨
        r.name = "Mountain" ∨ r.name = "Forest" then "Land" else pyTitle r.rarity) := by
  unfold process_card at h
  cases hset : ensure_card_set (ensure_card db r) r with
  | error e => rw [hset] at h; exact absurd h (by simp)
  | ok dbm =>
    rw [hset] at h
    simp only [Except.ok.injEq] at h
    subst h
    intro row hrow
    have hm : dbm.printings = db.printings :=
      (ensure_card_set_spec _ r dbm hset).2.2.1.trans (ensure_card_spec db r).2.2.1
    rcases List.mem_append.mp hrow with h1 | h2
    · left
      rw [← hm]
      exact h1
    · right
      have := printing_insert_rows_rarity dbm r.collector_number r.id r.set
        r.oracle_id (effective_rarity r.name r.rarity) row h2
      rw [this]
      unfold effective_rarity BASIC_LANDS
      by_cases hb : r.name = "Plains" ∨ r.name = "Island" ∨ r.name = "Swamp" ∨
          r.name = "Mountain" ∨ r.name = "Forest"
      · rw [if_pos hb, if_pos (by simpa using hb)]
      · rw [if_neg hb, if_neg (by simpa using hb)]

/-- Empty database state. -/
def emptyDB : DBState := { cards := [], card_sets := [], rarities := [], printings := [] }

/-- Bulk record for a Plains printing with nominal rarity "common". -/
def recPlains : CardRecord :=
  { name := "Plains", oracle_id := "oracle-plains", set := "m19",
    set_name := "Magic 2019", collector_number := "261", id := "scry-plains",
    rarity := "common", type_line := "Basic Land — Plains",
    released_at := "2018-07-13" }

/-- Database before populating the Plains record: the Rarity enumeration holds
"Land", and the Card_Set row for "m19" is already present. -/
def dbPlainsBefore : DBState :=
  { cards := [],
    card_sets := [{ english_name := "Magic 2019", abbreviation := "m19",
                    release_date := (2018, 7, 13) }],
    rarities := ["Land", "Common"],
    printings := [] }

/-- Database state after processing the Plains record. -/
def dbPlainsAfter : DBState :=
  { cards := [{ english_name := "Plains", card_type := "Basic Land",
                oracle_id := "oracle-plains" }],
    card_sets := [{ english_name := "Magic 2019", abbreviation := "m19",
                    release_date := (2018, 7, 13) }],
    rarities := ["Land", "Common"],
    printings := [{ oracle_id := "oracle-plains", set_abbr := "m19", rarity := "Land",
                    collector_number := "261", scryfall_id := "scry-plains" }] }

/-- The Printing row stored for the Plains record. -/
def rowPlains : PrintingRow :=
  { oracle_id := "oracle-plains", set_abbr := "m19", rarity := "Land",
    collector_number := "261", scryfall_id := "scry-plains" }

/-- Witness for C8: populating a "Plains" record with nominal rarity "common"
stores a Printing whose rarity is "Land". -/
theorem process_card_rarity_witness :
    rowPlains ∈ dbPlainsAfter.printings ∧
    (rowPlains ∈ dbPlainsBefore.printings ∨
      rowPlains.rarity = (if recPlains.name = "Plains" ∨ recPlains.name = "Island" ∨
        recPlains.name = "Swamp" ∨ recPlains.name = "Mountain" ∨
        recPlains.name = "Forest" then "Land" else pyTitle recPlains.rarity)) :=
  ⟨by decide,
    process_card_rarity dbPlainsBefore recPlains dbPlainsAfter rfl rowPlains (by decide)⟩

/-- C2: population is atomic. Whenever populate_database propagates an exception,
the visible state is exactly the state before the call (every Card, Card_Set and
Printing insertion of the failed run is rolled back) and is_database_populated is
false afterwards, so a fresh populate attempt is not blocked. -/
theorem populate_database_atomic (db : DBState) (records : List CardRecord)
    (db2 : DBState) (e : PopulateError)
    (h : populate_database db records = (db2, some e)) :
    db2 = db ∧ is_database_populated db2 = false := by
  unfold populate_database at h
  by_cases hp : is_database_populated db = true
  · rw [if_pos hp] at h
    exact absurd h (by simp)
  · rw [if_neg hp] at h
    cases hl : populate_loop db records with
    | ok db3 =>
      rw [hl] at h
      exact absurd h (by simp)
    | error e2 =>
      rw [hl] at h
      simp only [Prod.mk.injEq] at h
      obtain ⟨h1, _⟩ := h
      subst h1
      exact ⟨rfl, by simpa using hp⟩

/-- Record whose release date string cannot be parsed; inserting its new Card_Set
row raises mid-population. -/
def recBadDate : CardRecord :=
  { name := "Lightning Bolt", oracle_id := "oracle-bolt", set := "xxx",
    set_name := "Unknown Set", collector_number := "1", id := "scry-bolt",
    rarity := "common", type_line := "Instant", released_at := "not-a-date" }

/-- Witness for C2: a failing population on an empty store rolls back to the empty
store and leaves it unpopulated. -/
theorem populate_database_atomic_witness :
    populate_database emptyDB [recBadDate] =
      (emptyDB, some (PopulateError.invalidDate "not-a-date")) ∧
    (emptyDB = emptyDB ∧ is_database_populated emptyDB = false) :=
  ⟨rfl, populate_database_atomic emptyDB [recBadDate] emptyDB
    (PopulateError.invalidDate "not-a-date") rfl⟩

theorem process_card_ok_spec (db : DBState) (r : CardRecord) (db2 : DBState)
    (h : process_card db r = Except.ok db2) :
    db2.rarities = db.rarities ∧
    (∃ cs, db2.cards = db.cards ++ cs) ∧
    (∃ ss, db2.card_sets = db.card_sets ++ ss) ∧
    (∃ ps, db2.printings = db.printings ++ ps) ∧
    db2.cards.any (fun c => c.oracle_id = r.oracle_id) = true ∧
    db2.card_sets.any (fun s => s.abbreviation = r.set) = true ∧
    (db2.printings = db.printings →
      db.rarities.filter (fun n => n = effective_rarity r.name r.rarity) = []) := by
  unfold process_card at h
  cases hset : ensure_card_set (ensure_card db r) r with
  | error e => rw [hset] at h; exact absurd h (by simp)
  | ok dbm =>
    rw [hset] at h
    simp only [Except.ok.injEq] at h
    obtain ⟨hA1, hA2, hA3, ⟨cs, hA4⟩, hA5⟩ := ensure_card_spec db r
    obtain ⟨hB1, hB2, hB3, ⟨ss, hB4⟩, hB5⟩ := ensure_card_set_spec (ensure_card db r) r dbm hset
    have hcards : dbm.cards = db.cards ++ cs := hB1.trans hA4
    have hrar : dbm.rarities = db.rarities := hB2.trans hA2
    have hpr : dbm.printings = db.printings := hB3.trans hA3
    have hsets : dbm.card_sets = db.card_sets ++ ss := by rw [hB4, hA1]
    subst h
    refine ⟨hrar, ⟨cs, hcards⟩, ⟨ss, hsets⟩,
      ⟨printing_insert_rows dbm r.collector_number r.id r.set r.oracle_id
        (effective_rarity r.name r.rarity), by rw [← hpr]⟩, ?_, hB5, ?_⟩
    · show dbm.cards.any (fun c => c.oracle_id = r.oracle_id) = true
      rw [hB1]
      exact hA5
    · intro hnp
      show db.rarities.filter (fun n => n = effective_rarity r.name r.rarity) = []
      have hrows : printing_insert_rows dbm r.collector_number r.id r.set r.oracle_id
          (effective_rarity r.name r.rarity) = [] := by
        have := hnp
        rw [← hpr] at this
        have hl := congrArg List.length this
        simp at hl
        exact hl
      by_contra hne
      have hfil : dbm.rarities.filter
          (fun n => n = effective_rarity r.name r.rarity) ≠ [] := by
        rw [hrar]; exact hne
      obtain ⟨rname, hrname⟩ := List.exists_mem_of_ne_nil _ hfil
      have hsne : dbm.card_sets.filter (fun s => s.abbreviation = r.set) ≠ [] := by
        intro hcontra
        rcases List.any_eq_true.mp hB5 with ⟨x, hx, hpx⟩
        exact absurd hcontra (by
          intro hc
          have := List.filter_eq_nil_iff.mp hc x hx
          exact this hpx)
      have hcne : dbm.cards.filter (fun c => c.oracle_id = r.oracle_id) ≠ [] := by
        have hany : dbm.cards.any (fun c => c.oracle_id = r.oracle_id) = true := by
          rw [hB1]; exact hA5
        intro hc
        rcases List.any_eq_true.mp hany with ⟨x, hx, hpx⟩
        exact absurd (List.filter_eq_nil_iff.mp hc x hx) (by simp [hpx])
      obtain ⟨srow, hsrow⟩ := List.exists_mem_of_ne_nil _ hsne
      obtain ⟨crow, hcrow⟩ := List.exists_mem_of_ne_nil _ hcne
      have hmem : PrintingRow.mk crow.oracle_id srow.abbreviation rname
          r.collector_number r.id ∈
          printing_insert_rows dbm r.collector_number r.id r.set r.oracle_id
            (effective_rarity r.name r.rarity) := by
        unfold printing_insert_rows
        exact List.mem_flatMap.mpr ⟨rname, hrname,
          List.mem_flatMap.mpr ⟨srow, hsrow, List.mem_map.mpr ⟨crow, hcrow, rfl⟩⟩⟩
      rw [hrows] at hmem
      exact absurd hmem (List.not_mem_nil _)

theorem populate_loop_mono (rs : List CardRecord) (db db1 : DBState)
    (h : populate_loop db rs = Except.ok db1) :
    db1.rarities = db.rarities ∧
    (∃ cs, db1.cards = db.cards ++ cs) ∧
    (∃ ss, db1.card_sets = db.card_sets ++ ss) ∧
    (∃ ps, db1.printings = db.printings ++ ps) := by
  induction rs generalizing db with
  | nil =>
    unfold populate_loop at h
    simp only [Except.ok.injEq] at h
    subst h
    exact ⟨rfl, ⟨[], by simp⟩, ⟨[], by simp⟩, ⟨[], by simp⟩⟩
  | cons r rs ih =>
    unfold populate_loop at h
    cases hstep : process_card db r with
    | error e => rw [hstep] at h; exact absurd h (by simp)
    | ok dbm =>
      rw [hstep] at h
      obtain ⟨s1, ⟨cs1, s2⟩, ⟨ss1, s3⟩, ⟨ps1, s4⟩, _, _, _⟩ :=
        process_card_ok_spec db r dbm hstep
      obtain ⟨l1, ⟨cs2, l2⟩, ⟨ss2, l3⟩, ⟨ps2, l4⟩⟩ := ih dbm h
      refine ⟨l1.trans s1, ⟨cs1 ++ cs2, ?_⟩, ⟨ss1 ++ ss2, ?_⟩, ⟨ps1 ++ ps2, ?_⟩⟩
      · rw [l2, s2, List.append_assoc]
      · rw [l3, s3, List.append_assoc]
      · rw [l4, s4, List.append_assoc]

theorem populate_loop_conditions (rs : List CardRecord) (db db1 : DBState)
    (h : populate_loop db rs = Except.ok db1)
    (hpr : db1.printings = db.printings) :
    ∀ r ∈ rs,
      db1.cards.any (fun c => c.oracle_id = r.oracle_id) = true ∧
      db1.card_sets.any (fun s => s.abbreviation = r.set) = true ∧
      db1.rarities.filter (fun n => n = effective_rarity r.name r.rarity) = [] := by
  induction rs generalizing db with
  | nil => intro r hr; exact absurd hr (List.not_mem_nil r)
  | cons r0 rs ih =>
    unfold populate_loop at h
    cases hstep : process_card db r0 with
    | error e => rw [hstep] at h; exact absurd h (by simp)
    | ok dbm =>
      rw [hstep] at h
      obtain ⟨s1, ⟨cs1, s2⟩, ⟨ss1, s3⟩, ⟨ps1, s4⟩, s5, s6, s7⟩ :=
        process_card_ok_spec db r0 dbm hstep
      obtain ⟨l1, ⟨cs2, l2⟩, ⟨ss2, l3⟩, ⟨ps2, l4⟩⟩ := populate_loop_mono rs dbm db1 h
      have hps : ps1 = [] ∧ ps2 = [] := by
        have hcat : db.printings ++ (ps1 ++ ps2) = db.printings ++ [] := by
          rw [List.append_nil, ← List.append_assoc, ← s4, ← l4]
          exact hpr
        exact List.append_eq_nil.mp (List.append_cancel_left hcat)
      have hmid : dbm.printings = db.printings := by rw [s4, hps.1, List.append_nil]
      intro r hr
      rcases List.mem_cons.mp hr with h1 | h2
      · subst h1
        refine ⟨?_, ?_, ?_⟩
        · rw [l2, List.any_append, s5]
          rfl
        · rw [l3, List.any_append, s6]
          rfl
        · rw [l1, s1]
          exact s7 hmid
      · exact ih dbm h (by rw [l4, hps.2, List.append_nil]) r h2

theorem process_card_noop (db : DBState) (r : CardRecord)
    (hc : db.cards.any (fun c => c.oracle_id = r.oracle_id) = true)
    (hs : db.card_sets.any (fun s => s.abbreviation = r.set) = true)
    (hr : db.rarities.filter (fun n => n = effective_rarity r.name r.rarity) = []) :
    process_card db r = Except.ok db := by
  have hens : ensure_card db r = db := by
    unfold ensure_card
    rw [if_pos hc]
  have hens2 : ensure_card_set db r = Except.ok db := by
    unfold ensure_card_set
    rw [if_pos hs]
  have hrows : printing_insert_rows db r.collector_number r.id r.set r.oracle_id
      (effective_rarity r.name r.rarity) = [] := by
    unfold printing_insert_rows
    rw [hr]
    rfl
  unfold process_card
  rw [hens, hens2]
  show Except.ok
    { db with
      printings := db.printings ++
        printing_insert_rows db r.collector_number r.id r.set r.oracle_id
          (effective_rarity r.name r.rarity) } = Except.ok db
  rw [hrows, List.append_nil]

theorem populate_loop_noop (rs : List CardRecord) (db : DBState)
    (h : ∀ r ∈ rs,
      db.cards.any (fun c => c.oracle_id = r.oracle_id) = true ∧
      db.card_sets.any (fun s => s.abbreviation = r.set) = true ∧
      db.rarities.filter (fun n => n = effective_rarity r.name r.rarity) = []) :
    populate_loop db rs = Except.ok db := by
  induction rs with
  | nil => rfl
  | cons r rs ih =>
    obtain ⟨h1, h2, h3⟩ := h r (List.mem_cons_self _ _)
    unfold populate_loop
    rw [process_card_noop db r h1 h2 h3]
    exact ih (fun r2 hr2 => h r2 (List.mem_cons_of_mem r hr2))

/-- C4: populate_database is idempotent. When the store already holds at least one
Printing row it is a warned no-op returning the store unchanged, and in general a
second call after a successful call returns the state of the first call unchanged,
so calling populate twice equals calling it once. -/
theorem populate_database_idempotent (db : DBState) (records : List CardRecord) :
    (is_database_populated db = true → populate_database db records = (db, none)) ∧
    (∀ db1, populate_database db records = (db1, none) →
      populate_database db1 records = (db1, none)) := by
  constructor
  · intro hp
    unfold populate_database
    rw [if_pos hp]
  · intro db1 h
    unfold populate_database at h
    by_cases hp : is_database_populated db = true
    · rw [if_pos hp] at h
      simp only [Prod.mk.injEq] at h
      obtain ⟨h1, _⟩ := h
      subst h1
      unfold populate_database
      rw [if_pos hp]
    · rw [if_neg hp] at h
      cases hl : populate_loop db records with
      | error e =>
        rw [hl] at h
        exact absurd h (by simp)
      | ok db2 =>
        rw [hl] at h
        simp only [Prod.mk.injEq] at h
        obtain ⟨h1, _⟩ := h
        subst h1
        unfold populate_database
        by_cases hp1 : is_database_populated db2 = true
        · rw [if_pos hp1]
        · rw [if_neg hp1]
          have hemp : db2.printings = [] := by
            unfold is_database_populated at hp1
            simp at hp1
            exact hp1
          obtain ⟨_, _, _, ⟨ps, hps⟩⟩ := populate_loop_mono records db db2 hl
          have hdbp : db.printings = [] := by
            rw [hemp] at hps
            exact (List.append_eq_nil.mp hps.symm).1
          have hpreq : db2.printings = db.printings := by rw [hemp, hdbp]
          have hconds := populate_loop_conditions records db db2 hl hpreq
          rw [populate_loop_noop records db2 hconds]

/-- Witness for C4: a populated store is returned unchanged, and a second call
after a successful first call is a no-op. -/
theorem populate_database_idempotent_witness :
    populate_database dbPlainsAfter [recPlains] = (dbPlainsAfter, none) ∧
    populate_database emptyDB [] = (emptyDB, none) :=
  ⟨(populate_database_idempotent dbPlainsAfter [recPlains]).1 rfl,
   (populate_database_idempotent emptyDB []).2 emptyDB rfl⟩

/-! Claim C9: the commanders invariant of the deck model. -/

/-- A fresh deck, as built by the Deck constructor. -/
def fresh_deck : Deck := {}

/-- Number of distinct zone containers of the deck listing the card. -/
def zone_count (d : Deck) (c : Card) : Nat :=
  (if c ∈ d.main_deck then 1 else 0) + (if c ∈ d.side_board then 1 else 0) +
  (if c ∈ d.maybe_board then 1 else 0) + (if c ∈ d.acquire_bord then 1 else 0)

/-- Default card value used in the deck examples. -/
def cardX : Card := {}

/-- Deck built by adding the same card to the main deck and then, as a designated
commander, to the side board. -/
def deckTwice : Deck :=
  run_adds fresh_deck
    [AddOp.mk Zone.main cardX false, AddOp.mk Zone.side cardX true]

/-- Counterexample for C9 as stated: after adding the same card to the main deck
and then to the side board as a commander, the commanders list holds a card that
appears in two zone containers, not exactly one. -/
theorem commanders_not_in_exactly_one_zone :
    cardX ∈ deckTwice.commanders ∧ zone_count deckTwice cardX = 2 := by
  decide

theorem add_preserves_zone_membership (d : Deck) (z : Zone) (card : Card)
    (b : Bool) (c : Card)
    (h : c ∈ d.main_deck ∨ c ∈ d.side_board ∨ c ∈ d.maybe_board ∨
      c ∈ d.acquire_bord) :
    c ∈ (_add_to_deck d z card b).main_deck ∨
    c ∈ (_add_to_deck d z card b).side_board ∨
    c ∈ (_add_to_deck d z card b).maybe_board ∨
    c ∈ (_add_to_deck d z card b).acquire_bord := by
  unfold _add_to_deck
  cases z <;> cases b <;>
    rcases h with h1 | h1 | h1 | h1 <;>
    simp [List.mem_append] <;>
    tauto

theorem add_inv (d : Deck) (z : Zone) (card : Card) (b : Bool)
    (hd : ∀ c ∈ d.commanders, c ∈ d.main_deck ∨ c ∈ d.side_board ∨
      c ∈ d.maybe_board ∨ c ∈ d.acquire_bord) :
    ∀ c ∈ (_add_to_deck d z card b).commanders,
      c ∈ (_add_to_deck d z card b).main_deck ∨
      c ∈ (_add_to_deck d z card b).side_board ∨
      c ∈ (_add_to_deck d z card b).maybe_board ∨
      c ∈ (_add_to_deck d z card b).acquire_bord := by
  intro c hc
  by_cases hcc : c ∈ d.commanders
  · exact add_preserves_zone_membership d z card b c (hd c hcc)
  · have hcard : c = card := by
      unfold _add_to_deck at hc
      cases z <;> cases b <;> simp at hc <;>
        first
        | exact absurd hc hcc
        | rcases hc with h1 | h1
          · exact absurd h1 hcc
          · exact h1
    subst hcard
    unfold _add_to_deck
    cases z <;> cases b <;> simp [List.mem_append]

theorem run_adds_inv (ops : List AddOp) (d : Deck)
    (hd : ∀ c ∈ d.commanders, c ∈ d.main_deck ∨ c ∈ d.side_board ∨
      c ∈ d.maybe_board ∨ c ∈ d.acquire_bord) :
    ∀ c ∈ (run_adds d ops).commanders, c ∈ (run_adds d ops).main_deck ∨
      c ∈ (run_adds d ops).side_board ∨ c ∈ (run_adds d ops).maybe_board ∨
      c ∈ (run_adds d ops).acquire_bord := by
  induction ops generalizing d with
  | nil => exact hd
  | cons op rest ih =>
    exact ih (_add_to_deck d op.zone op.card op.is_commander)
      (add_inv d op.zone op.card op.is_commander hd)

/-- C9 (amended): after any sequence of add_to_... calls on a fresh deck, every
entry of the commanders list appears in at least one of the four zone containers;
the commanders list never holds a card that is in no zone. (The claim's "exactly
one zone" fails because the same card value can be added to several zones, see the
counterexample.) -/
theorem commanders_appear_in_a_zone (ops : List AddOp) (c : Card)
    (h : c ∈ (run_adds fresh_deck ops).commanders) :
    c ∈ (run_adds fresh_deck ops).main_deck ∨
    c ∈ (run_adds fresh_deck ops).side_board ∨
    c ∈ (run_adds fresh_deck ops).maybe_board ∨
    c ∈ (run_adds fresh_deck ops).acquire_bord :=
  run_adds_inv ops fresh_deck
    (by intro c2 hc2; exact absurd hc2 (List.not_mem_nil c2)) c h

/-- Witness for C9 with a single commander added to the main deck. -/
theorem commanders_appear_in_a_zone_witness :
    cardX ∈ (run_adds fresh_deck [AddOp.mk Zone.main cardX true]).main_deck ∨
    cardX ∈ (run_adds fresh_deck [AddOp.mk Zone.main cardX true]).side_board ∨
    cardX ∈ (run_adds fresh_deck [AddOp.mk Zone.main cardX true]).maybe_board ∨
    cardX ∈ (run_adds fresh_deck [AddOp.mk Zone.main cardX true]).acquire_bord :=
  commanders_appear_in_a_zone [AddOp.mk Zone.main cardX true] cardX (by decide)

/-! Claims C1 and C10: the completion algorithm. -/

theorem fill_zone_spec (db : DBState) (cs cs2 : List Card)
    (h : fill_zone db cs = Except.ok cs2) :
    cs2.length = cs.length ∧
    ∀ i (hi : i < cs.length) (hi2 : i < cs2.length),
      _fill_information_for_card (cs.get ⟨i, hi⟩) db = Except.ok (cs2.get ⟨i, hi2⟩) := by
  induction cs generalizing cs2 with
  | nil =>
    unfold fill_zone at h
    simp only [Except.ok.injEq] at h
    subst h
    exact ⟨rfl, fun i hi => absurd hi (by simp)⟩
  | cons c rest ih =>
    unfold fill_zone at h
    cases hf : _fill_information_for_card c db with
    | error e => rw [hf] at h; exact absurd h (by simp)
    | ok c2 =>
      rw [hf] at h
      cases hr : fill_zone db rest with
      | error e => rw [hr] at h; exact absurd h (by simp)
      | ok rest2 =>
        rw [hr] at h
        simp only [Except.ok.injEq] at h
        subst h
        obtain ⟨hlen, hpt⟩ := ih rest2 hr
        refine ⟨by simp [hlen], ?_⟩
        intro i hi hi2
        cases i with
        | zero => exact hf
        | succ n =>
          exact hpt n (by simpa using hi) (by simpa using hi2)

theorem fill_information_cases (db : DBState) (card : Card) :
    (truthy card.english_name = true →
      ((truthy card.set_abbreviation = false ∧ truthy card.collector_number = false) ∨
        (truthy card.set_abbreviation = true ∧
          is_set_abbreviation_known db (card.set_abbreviation.getD "") = false)) →
      _fill_information_for_card card db =
        (get_card_set_and_number_for_name db (card.english_name.getD "")).map
          (fun sn =>
            { card with set_abbreviation := some sn.1, collector_number := some sn.2 })) ∧
    (truthy card.english_name = true → truthy card.set_abbreviation = true →
      is_set_abbreviation_known db (card.set_abbreviation.getD "") = true →
      truthy card.collector_number = false →
      _fill_information_for_card card db =
        (get_collector_number_for_card_in_set db (card.english_name.getD "")
          (card.set_abbreviation.getD "")).map
          (fun n => { card with collector_number := some n })) ∧
    (truthy card.english_name = true → truthy card.set_abbreviation = false →
      truthy card.collector_number = true →
      _fill_information_for_card card db =
        (get_card_set_for_card_with_collector_number db (card.english_name.getD "")
          (card.collector_number.getD "")).map
          (fun s => { card with set_abbreviation := some s })) ∧
    (truthy card.english_name = true → truthy card.set_abbreviation = true →
      is_set_abbreviation_known db (card.set_abbreviation.getD "") = true →
      truthy card.collector_number = true →
      _fill_information_for_card card db = Except.ok card) ∧
    (truthy card.english_name = false → truthy card.set_abbreviation = true →
      truthy card.collector_number = true →
      _fill_information_for_card card db =
        (get_english_name_for_card_in_card_set db (card.set_abbreviation.getD "")
          (card.collector_number.getD "")).map
          (fun n => { card with english_name := some n })) ∧
    (truthy card.english_name = false →
      ¬(truthy card.set_abbreviation = true ∧ truthy card.collector_number = true) →
      _fill_information_for_card card db = Except.ok card) := by
  refine ⟨?_, ?_, ?_, ?_, ?_, ?_⟩
  · intro hname hcase
    unfold _fill_information_for_card
    have hcond : ((!truthy card.set_abbreviation && !truthy card.collector_number)
        || (truthy card.set_abbreviation &&
          !is_set_abbreviation_known db (card.set_abbreviation.getD ""))) = true := by
      rcases hcase with ⟨hs, hn⟩ | ⟨hs, hk⟩
      · rw [hs, hn]; rfl
      · rw [hs, hk]; rfl
    rw [hname, hcond]
    cases hlook : get_card_set_and_number_for_name db (card.english_name.getD "") with
    | error e => simp [hlook, Except.map]
    | ok sn => cases sn; simp [hlook, Except.map]
  · intro hname hset hknown hnum
    unfold _fill_information_for_card
    have hcond : ((!truthy card.set_abbreviation && !truthy card.collector_number)
        || (truthy card.set_abbreviation &&
          !is_set_abbreviation_known db (card.set_abbreviation.getD ""))) = false := by
      rw [hset, hknown, hnum]; rfl
    rw [hname, hcond, hnum]
    cases hlook : get_collector_number_for_card_in_set db (card.english_name.getD "")
        (card.set_abbreviation.getD "") with
    | error e => simp [hlook, Except.map]
    | ok n => simp [hlook, Except.map]
  · intro hname hset hnum
    unfold _fill_information_for_card
    have hcond : ((!truthy card.set_abbreviation && !truthy card.collector_number)
        || (truthy card.set_abbreviation &&
          !is_set_abbreviation_known db (card.set_abbreviation.getD ""))) = false := by
      rw [hset, hnum]; rfl
    rw [hname, hcond, hnum, hset]
    cases hlook : get_card_set_for_card_with_collector_number db
        (card.english_name.getD "") (card.collector_number.getD "") with
    | error e => simp [hlook, Except.map]
    | ok s2 => simp [hlook, Except.map]
  · intro hname hset hknown hnum
    unfold _fill_information_for_card
    have hcond : ((!truthy card.set_abbreviation && !truthy card.collector_number)
        || (truthy card.set_abbreviation &&
          !is_set_abbreviation_known db (card.set_abbreviation.getD ""))) = false := by
      rw [hset, hknown, hnum]; rfl
    rw [hname, hcond, hnum, hset]
    simp
  · intro hname hset hnum
    unfold _fill_information_for_card
    rw [hname, hset, hnum]
    cases hlook : get_english_name_for_card_in_card_set db
        (card.set_abbreviation.getD "") (card.collector_number.getD "") with
    | error e => simp [hlook, Except.map]
    | ok n => simp [hlook, Except.map]
  · intro hname hcase
    unfold _fill_information_for_card
    have hcond : (truthy card.set_abbreviation && truthy card.collector_number) = false := by
      rcases Bool.eq_false_or_eq_true (truthy card.set_abbreviation) with hs | hs
      · rcases Bool.eq_false_or_eq_true (truthy card.collector_number) with hn | hn
        · exact absurd ⟨hs, hn⟩ hcase
        · rw [hs, hn]; rfl
      · rw [hs]; rfl
    rw [hname, hcond]
    simp

theorem fill_missing_information_zones (db : DBState) (deck deck2 : Deck)
    (h : fill_missing_information deck db = Except.ok deck2) :
    fill_zone db deck.main_deck = Except.ok deck2.main_deck ∧
    fill_zone db deck.side_board = Except.ok deck2.side_board ∧
    fill_zone db deck.maybe_board = Except.ok deck2.maybe_board ∧
    fill_zone db deck.acquire_bord = Except.ok deck2.acquire_bord ∧
    deck2.name = deck.name ∧ deck2.commanders = deck.commanders := by
  unfold fill_missing_information at h
  cases h1 : fill_zone db deck.main_deck with
  | error e => rw [h1] at h; exact absurd h (by simp)
  | ok m =>
    rw [h1] at h
    cases h2 : fill_zone db deck.side_board with
    | error e => rw [h2] at h; exact absurd h (by simp)
    | ok sb =>
      rw [h2] at h
      cases h3 : fill_zone db deck.maybe_board with
      | error e => rw [h3] at h; exact absurd h (by simp)
      | ok mb =>
        rw [h3] at h
        cases h4 : fill_zone db deck.acquire_bord with
        | error e => rw [h4] at h; exact absurd h (by simp)
        | ok aq =>
          rw [h4] at h
          simp only [Except.ok.injEq] at h
          subst h
          refine ⟨?_, ?_, ?_, ?_, rfl, rfl⟩
          · simpa using h1
          · simpa using h2
          · simpa using h3
          · simpa using h4

/-- C1: the completion decision table. For every card: a truthy English name with
either both set and collector number falsy or a truthy set abbreviation that is not
known to the database leads to a name-only lookup overwriting both set and number
(the unrecognized set value is discarded, even when a collector number was given);
a truthy name with a known truthy set and falsy number resolves the number by
(name, set); a truthy name with a falsy set and truthy number resolves the set by
(name, number); all three known means no lookup; a falsy name is resolved by
(set, number) exactly when both are truthy and the card is left unchanged
otherwise. fill_missing_information applies this per-card procedure to every card
of the four zone containers, in place. -/
theorem fill_missing_information_decision_table (db : DBState) (card : Card)
    (deck deck2 : Deck) :
    (truthy card.english_name = true →
      ((truthy card.set_abbreviation = false ∧ truthy card.collector_number = false) ∨
        (truthy card.set_abbreviation = true ∧
          is_set_abbreviation_known db (card.set_abbreviation.getD "") = false)) →
      _fill_information_for_card card db =
        (get_card_set_and_number_for_name db (card.english_name.getD "")).map
          (fun sn =>
            { card with set_abbreviation := some sn.1, collector_number := some sn.2 })) ∧
    (truthy card.english_name = true → truthy card.set_abbreviation = true →
      is_set_abbreviation_known db (card.set_abbreviation.getD "") = true →
      truthy card.collector_number = false →
      _fill_information_for_card card db =
        (get_collector_number_for_card_in_set db (card.english_name.getD "")
          (card.set_abbreviation.getD "")).map
          (fun n => { card with collector_number := some n })) ∧
    (truthy card.english_name = true → truthy card.set_abbreviation = false →
      truthy card.collector_number = true →
      _fill_information_for_card card db =
        (get_card_set_for_card_with_collector_number db (card.english_name.getD "")
          (card.collector_number.getD "")).map
          (fun s => { card with set_abbreviation := some s })) ∧
    (truthy card.english_name = true → truthy card.set_abbreviation = true →
      is_set_abbreviation_known db (card.set_abbreviation.getD "") = true →
      truthy card.collector_number = true →
      _fill_information_for_card card db = Except.ok card) ∧
    (truthy card.english_name = false → truthy card.set_abbreviation = true →
      truthy card.collector_number = true →
      _fill_information_for_card card db =
        (get_english_name_for_card_in_card_set db (card.set_abbreviation.getD "")
          (card.collector_number.getD "")).map
          (fun n => { card with english_name := some n })) ∧
    (truthy card.english_name = false →
      ¬(truthy card.set_abbreviation = true ∧ truthy card.collector_number = true) →
      _fill_information_for_card card db = Except.ok card) ∧
    (fill_missing_information deck db = Except.ok deck2 →
      (∀ i (hi : i < deck.main_deck.length) (hi2 : i < deck2.main_deck.length),
        _fill_information_for_card (deck.main_deck.get ⟨i, hi⟩) db =
          Except.ok (deck2.main_deck.get ⟨i, hi2⟩)) ∧
      (∀ i (hi : i < deck.side_board.length) (hi2 : i < deck2.side_board.length),
        _fill_information_for_card (deck.side_board.get ⟨i, hi⟩) db =
          Except.ok (deck2.side_board.get ⟨i, hi2⟩)) ∧
      (∀ i (hi : i < deck.maybe_board.length) (hi2 : i < deck2.maybe_board.length),
        _fill_information_for_card (deck.maybe_board.get ⟨i, hi⟩) db =
          Except.ok (deck2.maybe_board.get ⟨i, hi2⟩)) ∧
      (∀ i (hi : i < deck.acquire_bord.length) (hi2 : i < deck2.acquire_bord.length),
        _fill_information_for_card (deck.acquire_bord.get ⟨i, hi⟩) db =
          Except.ok (deck2.acquire_bord.get ⟨i, hi2⟩))) := by
  obtain ⟨t1, t2, t3, t4, t5, t6⟩ := fill_information_cases db card
  refine ⟨t1, t2, t3, t4, t5, t6, ?_⟩
  intro h
  obtain ⟨z1, z2, z3, z4, _, _⟩ := fill_missing_information_zones db deck deck2 h
  exact ⟨(fill_zone_spec db _ _ z1).2, (fill_zone_spec db _ _ z2).2,
    (fill_zone_spec db _ _ z3).2, (fill_zone_spec db _ _ z4).2⟩

/-- Database state holding a single Island printing in set "M19" with collector
number "260". -/
def dbIsland : DBState :=
  { cards := [{ english_name := "Island", card_type := "Basic Land",
                oracle_id := "oracle-island" }],
    card_sets := [{ english_name := "Magic 2019", abbreviation := "M19",
                    release_date := (2018, 7, 13) }],
    rarities := ["Land"],
    printings := [{ oracle_id := "oracle-island", set_abbr := "M19", rarity := "Land",
                    collector_number := "260", scryfall_id := "scry-island" }] }

/-- Card known only by its English name. -/
def cardIsland : Card := { english_name := some "Island" }

/-- Witness for C1: a card with only a truthy English name takes the name-only
lookup path that overwrites both the set abbreviation and the collector number. -/
theorem fill_missing_information_decision_table_witness :
    _fill_information_for_card cardIsland dbIsland =
      (get_card_set_and_number_for_name dbIsland (cardIsland.english_name.getD "")).map
        (fun sn =>
          { cardIsland with set_abbreviation := some sn.1,
                            collector_number := some sn.2 }) :=
  (fill_missing_information_decision_table dbIsland cardIsland fresh_deck fresh_deck).1
    (by decide) (Or.inl ⟨by decide, by decide⟩)

theorem fill_card_frame (db : DBState) (c c2 : Card)
    (h : _fill_information_for_card c db = Except.ok c2) :
    c2.language = c.language ∧ c2.foil = c.foil ∧ c2.condition = c.condition := by
  rcases Bool.eq_false_or_eq_true (truthy c.english_name) with hname | hname
  · by_cases hcase : (truthy c.set_abbreviation = false ∧
        truthy c.collector_number = false) ∨
        (truthy c.set_abbreviation = true ∧
          is_set_abbreviation_known db (c.set_abbreviation.getD "") = false)
    · rw [(fill_information_cases db c).1 hname hcase] at h
      cases hlook : get_card_set_and_number_for_name db (c.english_name.getD "") with
      | error e => rw [hlook] at h; exact absurd h (by simp [Except.map])
      | ok sn =>
        rw [hlook] at h
        simp only [Except.map, Except.ok.injEq] at h
        rw [← h]
        exact ⟨rfl, rfl, rfl⟩
    · rcases Bool.eq_false_or_eq_true (truthy c.collector_number) with hnum | hnum
      · rcases Bool.eq_false_or_eq_true (truthy c.set_abbreviation) with hset | hset
        · rcases Bool.eq_false_or_eq_true
              (is_set_abbreviation_known db (c.set_abbreviation.getD "")) with hk | hk
          · rw [(fill_information_cases db c).2.2.2.1 hname hset hk hnum] at h
            simp only [Except.ok.injEq] at h
            rw [← h]
            exact ⟨rfl, rfl, rfl⟩
          · exact absurd (Or.inr ⟨hset, hk⟩) hcase
        · rw [(fill_information_cases db c).2.2.1 hname hset hnum] at h
          cases hlook : get_card_set_for_card_with_collector_number db
              (c.english_name.getD "") (c.collector_number.getD "") with
          | error e => rw [hlook] at h; exact absurd h (by simp [Except.map])
          | ok s2 =>
            rw [hlook] at h
            simp only [Except.map, Except.ok.injEq] at h
            rw [← h]
            exact ⟨rfl, rfl, rfl⟩
      · rcases Bool.eq_false_or_eq_true (truthy c.set_abbreviation) with hset | hset
        · rcases Bool.eq_false_or_eq_true
              (is_set_abbreviation_known db (c.set_abbreviation.getD "")) with hk | hk
          · rw [(fill_information_cases db c).2.1 hname hset hk hnum] at h
            cases hlook : get_collector_number_for_card_in_set db
                (c.english_name.getD "") (c.set_abbreviation.getD "") with
            | error e => rw [hlook] at h; exact absurd h (by simp [Except.map])
            | ok n =>
              rw [hlook] at h
              simp only [Except.map, Except.ok.injEq] at h
              rw [← h]
              exact ⟨rfl, rfl, rfl⟩
          · exact absurd (Or.inr ⟨hset, hk⟩) hcase
        · exact absurd (Or.inl ⟨hset, hnum⟩) hcase
  · by_cases hsn : truthy c.set_abbreviation = true ∧ truthy c.collector_number = true
    · rw [(fill_information_cases db c).2.2.2.2.1 hname hsn.1 hsn.2] at h
      cases hlook : get_english_name_for_card_in_card_set db
          (c.set_abbreviation.getD "") (c.collector_number.getD "") with
      | error e => rw [hlook] at h; exact absurd h (by simp [Except.map])
      | ok n =>
        rw [hlook] at h
        simp only [Except.map, Except.ok.injEq] at h
        rw [← h]
        exact ⟨rfl, rfl, rfl⟩
    · rw [(fill_information_cases db c).2.2.2.2.2 hname hsn] at h
      simp only [Except.ok.injEq] at h
      rw [← h]
      exact ⟨rfl, rfl, rfl⟩

theorem fill_zone_frame (db : DBState) (cs cs2 : List Card)
    (h : fill_zone db cs = Except.ok cs2) :
    cs2.length = cs.length ∧
    ∀ i (hi : i < cs.length) (hi2 : i < cs2.length),
      (cs2.get ⟨i, hi2⟩).language = (cs.get ⟨i, hi⟩).language ∧
      (cs2.get ⟨i, hi2⟩).foil = (cs.get ⟨i, hi⟩).foil ∧
      (cs2.get ⟨i, hi2⟩).condition = (cs.get ⟨i, hi⟩).condition := by
  obtain ⟨hlen, hpt⟩ := fill_zone_spec db cs cs2 h
  exact ⟨hlen, fun i hi hi2 => fill_card_frame db _ _ (hpt i hi hi2)⟩

/-- C10: fill_missing_information only ever assigns the english_name,
set_abbreviation and collector_number fields of the cards it processes. On
success it leaves the deck's name and commanders list unchanged, adds, removes and
reorders no entry of the four zone containers (each zone keeps its length, with
the entry at each position derived in place from the original entry), and leaves
every card's language, foil and condition fields unchanged. -/
theorem fill_missing_information_frame (db : DBState) (deck deck2 : Deck)
    (h : fill_missing_information deck db = Except.ok deck2) :
    deck2.name = deck.name ∧
    deck2.commanders = deck.commanders ∧
    deck2.main_deck.length = deck.main_deck.length ∧
    deck2.side_board.length = deck.side_board.length ∧
    deck2.maybe_board.length = deck.maybe_board.length ∧
    deck2.acquire_bord.length = deck.acquire_bord.length ∧
    (∀ i (hi : i < deck.main_deck.length) (hi2 : i < deck2.main_deck.length),
      (deck2.main_deck.get ⟨i, hi2⟩).language = (deck.main_deck.get ⟨i, hi⟩).language ∧
      (deck2.main_deck.get ⟨i, hi2⟩).foil = (deck.main_deck.get ⟨i, hi⟩).foil ∧
      (deck2.main_deck.get ⟨i, hi2⟩).condition =
        (deck.main_deck.get ⟨i, hi⟩).condition) ∧
    (∀ i (hi : i < deck.side_board.length) (hi2 : i < deck2.side_board.length),
      (deck2.side_board.get ⟨i, hi2⟩).language = (deck.side_board.get ⟨i, hi⟩).language ∧
      (deck2.side_board.get ⟨i, hi2⟩).foil = (deck.side_board.get ⟨i, hi⟩).foil ∧
      (deck2.side_board.get ⟨i, hi2⟩).condition =
        (deck.side_board.get ⟨i, hi⟩).condition) ∧
    (∀ i (hi : i < deck.maybe_board.length) (hi2 : i < deck2.maybe_board.length),
      (deck2.maybe_board.get ⟨i, hi2⟩).language =
        (deck.maybe_board.get ⟨i, hi⟩).language ∧
      (deck2.maybe_board.get ⟨i, hi2⟩).foil = (deck.maybe_board.get ⟨i, hi⟩).foil ∧
      (deck2.maybe_board.get ⟨i, hi2⟩).condition =
        (deck.maybe_board.get ⟨i, hi⟩).condition) ∧
    (∀ i (hi : i < deck.acquire_bord.length) (hi2 : i < deck2.acquire_bord.length),
      (deck2.acquire_bord.get ⟨i, hi2⟩).language =
        (deck.acquire_bord.get ⟨i, hi⟩).language ∧
      (deck2.acquire_bord.get ⟨i, hi2⟩).foil = (deck.acquire_bord.get ⟨i, hi⟩).foil ∧
      (deck2.acquire_bord.get ⟨i, hi2⟩).condition =
        (deck.acquire_bord.get ⟨i, hi⟩).condition) := by
  obtain ⟨z1, z2, z3, z4, hn, hc⟩ := fill_missing_information_zones db deck deck2 h
  obtain ⟨l1, p1⟩ := fill_zone_frame db _ _ z1
  obtain ⟨l2, p2⟩ := fill_zone_frame db _ _ z2
  obtain ⟨l3, p3⟩ := fill_zone_frame db _ _ z3
  obtain ⟨l4, p4⟩ := fill_zone_frame db _ _ z4
  exact ⟨hn, hc, l1, l2, l3, l4, p1, p2, p3, p4⟩

/-- Card resulting from completing cardIsland against dbIsland. -/
def cardIslandFilled : Card :=
  { english_name := some "Island", set_abbreviation := some "m19",
    collector_number := some "260" }

/-- Deck holding only cardIsland in the main deck. -/
def deck10 : Deck := { name := "d", main_deck := [cardIsland] }

/-- The deck after completion. -/
def deck10f : Deck := { name := "d", main_deck := [cardIslandFilled] }

/-- Witness for C10: completing a one-card deck keeps the name, the commanders
list and the zone lengths. -/
theorem fill_missing_information_frame_witness :
    fill_missing_information deck10 dbIsland = Except.ok deck10f ∧
    deck10f.name = deck10.name ∧
    deck10f.commanders = deck10.commanders ∧
    deck10f.main_deck.length = deck10.main_deck.length :=
  ⟨rfl,
    (fill_missing_information_frame dbIsland deck10 deck10f rfl).1,
    (fill_missing_information_frame dbIsland deck10 deck10f rfl).2.1,
    (fill_missing_information_frame dbIsland deck10 deck10f rfl).2.2.1⟩
